import Mathlib

/-!
# Smart bin lid controller (`src/blink.c++`)

A shallow embedding of the Arduino sketch.  The global variables of the sketch
become the fields of `Ctl`; the attachment state of the `Servo` object is an
explicit field.  Hardware calls (`digitalWrite`, `analogWrite`, `tone`,
`noTone`, `delay`, `Servo::attach/write/detach`) are recorded, in program
order, as a list of `Cmd`.  One call of `loop()` is the function `loop`; what
`millis()` and `getDistance()` return during that call is its input `Tick`.

Integers: `currentServoPos` and `distance` are C `int`, modelled by `Int`
(the values the program computes stay far inside 16 bits); clock values are
`unsigned long`, modelled by `Nat`.
-/

namespace SmartBin

/-! ## Pin definitions and servo movement parameters (lines 4-17) -/

def trigPin : Int := 9
def echoPin : Int := 10
def redLed : Int := 3
def greenLed : Int := 4
def buzzer : Int := 5
def servoPin : Int := 6
def blueLed : Int := 7

def OPEN_POS : Int := 0
def CLOSED_POS : Int := 140
def OPEN_SPEED : Int := 3
def CLOSE_SPEED : Int := 1
def SERVO_STEP_DELAY : Nat := 15

/-! ## State (lines 20-23, 32) -/

/-- The enumeration `BinState` of line 20. -/
inductive BinState where
  | CLOSED
  | OPENING
  | OPEN
  | CLOSING
  deriving DecidableEq, Repr

/-- One hardware call issued by the sketch. -/
inductive Cmd where
  | serialBegin (baud : Nat)
  | pinMode (pin : Int) (output : Bool)
  | digitalWrite (pin : Int) (high : Bool)
  | analogWrite (pin : Int) (value : Int)
  | tone (pin : Int) (frequency : Int) (duration : Int)
  | noTone (pin : Int)
  | delay (ms : Nat)
  | servoAttach (pin : Int)
  | servoWrite (value : Int)
  | servoDetach
  deriving DecidableEq, Repr

/-- The mutable globals of the sketch: `currentState`, `currentServoPos`,
`lastServoStepTime`, and whether `myServo` is attached. -/
structure Ctl where
  currentState : BinState
  currentServoPos : Int
  lastServoStepTime : Nat
  attached : Bool
  deriving DecidableEq, Repr

/-- What one call of `loop()` reads from the outside: `now` is the `millis()`
of line 52, `distance` the result of `getDistance()` (line 53), and
`dimMillis` the `millis()` read inside `smoothDimToBright` (line 159), which
is only read when the state is `CLOSED`. -/
structure Tick where
  now : Nat
  distance : Int
  dimMillis : Nat
  deriving DecidableEq, Repr

/-! ## Feedback routines (lines 116-179) -/

/-- Arduino `map(x, in_min, in_max, out_min, out_max)` on `long`:
`(x - in_min) * (out_max - out_min) / (in_max - in_min) + out_min`, with the
truncating division of C. -/
def map (x in_min in_max out_min out_max : Int) : Int :=
  Int.tdiv ((x - in_min) * (out_max - out_min)) (in_max - in_min) + out_min

/-- The body of the `for` loop of `playOpeningTune` (lines 120-123) from index
`i` on.  `delay(duration[i] * 1.2)` truncates the product to an integer; for
the four durations of the sketch that is `duration[i] * 12 / 10`. -/
def playNotes : List Int → List Int → List Cmd
  | m :: melody, d :: duration =>
      Cmd.tone buzzer m d :: Cmd.delay (d * 12 / 10).toNat :: playNotes melody duration
  | _, _ => []

/-- The routine `playOpeningTune` (lines 116-125). -/
def playOpeningTune : List Cmd :=
  playNotes [262, 330, 392, 523] [200, 200, 300, 400] ++ [Cmd.noTone buzzer]

/-- The loop `for (int j = 0; j < 255; j += 25)` of lines 140-143, from `j`. -/
def rampUp (j : Int) : List Cmd :=
  if j < 255 then
    Cmd.analogWrite greenLed j :: Cmd.delay 10 :: rampUp (j + 25)
  else []
termination_by (255 - j).toNat
decreasing_by omega

/-- The loop `for (int j = 255; j >= 0; j -= 25)` of lines 146-149, from `j`. -/
def rampDown (j : Int) : List Cmd :=
  if 0 ≤ j then
    Cmd.analogWrite greenLed j :: Cmd.delay 10 :: rampDown (j - 25)
  else []
termination_by (j + 1).toNat
decreasing_by omega

/-- One iteration of the outer loop of `greenWarningWithBeep` (lines 140-150). -/
def warningRound : List Cmd :=
  rampUp 0 ++ [Cmd.tone buzzer 700 200, Cmd.delay 200] ++ rampDown 255 ++ [Cmd.delay 150]

/-- The outer loop `for (int i = 0; i < 3; i++)` of line 139, from `i`. -/
def warningRounds (i : Int) : List Cmd :=
  if i < 3 then warningRound ++ warningRounds (i + 1) else []
termination_by (3 - i).toNat
decreasing_by omega

/-- The routine `greenWarningWithBeep` (lines 138-154). -/
def greenWarningWithBeep : List Cmd :=
  warningRounds 0 ++ [Cmd.noTone buzzer, Cmd.digitalWrite greenLed false]

/-- The brightness computed by `smoothDimToBright` (lines 158-163) when
`millis()` returns `t`. -/
def dimBrightness (cycleDuration t : Nat) : Int :=
  let halfCycle := cycleDuration / 2
  let currentTime := t % cycleDuration
  let brightness := map currentTime 0 halfCycle 0 255
  if currentTime > halfCycle then
    map currentTime halfCycle cycleDuration 255 0
  else brightness

/-- The routine `smoothDimToBright` (lines 157-165); `t` is what `millis()`
returns on line 159. -/
def smoothDimToBright (ledPin : Int) (cycleDuration t : Nat) : List Cmd :=
  [Cmd.analogWrite ledPin (dimBrightness cycleDuration t)]

/-- The loop of `blinkAllLeds` (lines 169-178) from `i`. -/
def blinkAllLedsFrom (i times : Int) (duration : Int) : List Cmd :=
  if i < times then
    [Cmd.digitalWrite redLed true, Cmd.digitalWrite greenLed true,
     Cmd.digitalWrite blueLed true, Cmd.delay (Int.tdiv duration 2).toNat,
     Cmd.digitalWrite redLed false, Cmd.digitalWrite greenLed false,
     Cmd.digitalWrite blueLed false, Cmd.delay (Int.tdiv duration 2).toNat]
      ++ blinkAllLedsFrom (i + 1) times duration
  else []
termination_by (times - i).toNat
decreasing_by omega

/-- The routine `blinkAllLeds` (lines 168-179). -/
def blinkAllLeds (times duration : Int) : List Cmd :=
  blinkAllLedsFrom 0 times duration

/-! ## `setup` and `loop` (lines 34-113) -/

/-- The globals after their initialisers (lines 21-23, 32) and `setup()`
(lines 34-49): `attach`, `write(CLOSED_POS)`, `detach` leave the servo
detached. -/
def setup : Ctl × List Cmd :=
  ({ currentState := BinState.CLOSED, currentServoPos := CLOSED_POS,
     lastServoStepTime := 0, attached := false },
   [Cmd.serialBegin 9600, Cmd.pinMode trigPin true, Cmd.pinMode echoPin false,
    Cmd.pinMode redLed true, Cmd.pinMode greenLed true, Cmd.pinMode buzzer true,
    Cmd.pinMode blueLed true, Cmd.servoAttach servoPin, Cmd.servoWrite CLOSED_POS,
    Cmd.servoDetach, Cmd.digitalWrite redLed false, Cmd.digitalWrite greenLed false,
    Cmd.digitalWrite blueLed true])

/-- One call of `loop()` (lines 51-113): the new globals and the hardware calls
issued, in order. -/
def loop (s : Ctl) (i : Tick) : Ctl × List Cmd :=
  match s.currentState with
  | BinState.CLOSED =>
    let out := [Cmd.digitalWrite blueLed true] ++ smoothDimToBright redLed 2000 i.dimMillis
      ++ [Cmd.digitalWrite greenLed false]
    if i.distance > 0 ∧ i.distance ≤ 35 then
      ({ s with currentState := BinState.OPENING, attached := true },
       out ++ playOpeningTune ++ [Cmd.servoAttach servoPin])
    else (s, out)
  | BinState.OPENING =>
    let out := [Cmd.digitalWrite blueLed false, Cmd.digitalWrite redLed false,
      Cmd.digitalWrite greenLed (decide ((i.now / 100) % 2 = 0))]
    if s.currentServoPos > OPEN_POS then
      ({ s with currentServoPos := s.currentServoPos - OPEN_SPEED },
       out ++ [Cmd.servoWrite (s.currentServoPos - OPEN_SPEED), Cmd.delay SERVO_STEP_DELAY])
    else
      ({ s with currentState := BinState.OPEN }, out ++ [Cmd.digitalWrite greenLed true])
  | BinState.OPEN =>
    ({ s with currentState := BinState.CLOSING }, [Cmd.delay 5000] ++ greenWarningWithBeep)
  | BinState.CLOSING =>
    let out := [Cmd.digitalWrite greenLed false,
      Cmd.digitalWrite redLed (decide ((i.now / 300) % 2 = 0))]
    if i.distance > 0 ∧ i.distance ≤ 20 then
      ({ s with currentState := BinState.OPENING }, out)
    else if s.currentServoPos < CLOSED_POS then
      ({ s with currentServoPos := s.currentServoPos + CLOSE_SPEED },
       out ++ [Cmd.servoWrite (s.currentServoPos + CLOSE_SPEED), Cmd.delay SERVO_STEP_DELAY])
    else
      ({ s with currentState := BinState.CLOSED, attached := false },
       out ++ blinkAllLeds 2 400 ++ [Cmd.servoDetach, Cmd.digitalWrite redLed false,
         Cmd.digitalWrite greenLed false, Cmd.digitalWrite blueLed true])

/-! ## Runs -/

/-- The globals after the calls of `loop()` with the inputs `ticks`, in order. -/
def exec (s : Ctl) : List Tick → Ctl
  | [] => s
  | i :: ticks => exec (loop s i).1 ticks

/-- The globals after the first `n` calls of `loop()` on the input stream `inp`. -/
def run (s : Ctl) (inp : Nat → Tick) : Nat → Ctl
  | 0 => s
  | n + 1 => (loop (run s inp n) (inp n)).1

/-- The hardware calls issued by call number `n` (counted from 0) of `loop()`
on the input stream `inp`. -/
def emitted (s : Ctl) (inp : Nat → Tick) (n : Nat) : List Cmd :=
  (loop (run s inp n) (inp n)).2

/-- A state of the globals that some finite sequence of `loop()` calls after
`setup()` produces. -/
def Reachable (s : Ctl) : Prop := ∃ ticks : List Tick, exec setup.1 ticks = s

/-- Total time, in ms, spent in `delay` by a sequence of hardware calls. -/
def delayTotal : List Cmd → Nat
  | [] => 0
  | Cmd.delay ms :: cs => ms + delayTotal cs
  | _ :: cs => delayTotal cs

/-- The `(frequency, duration)` pairs of the `tone` calls, in order. -/
def tonesOf : List Cmd → List (Int × Int)
  | [] => []
  | Cmd.tone _ f d :: cs => (f, d) :: tonesOf cs
  | _ :: cs => tonesOf cs

/-- The values passed to `myServo.write`, in order. -/
def servoWrites : List Cmd → List Int
  | [] => []
  | Cmd.servoWrite v :: cs => v :: servoWrites cs
  | _ :: cs => servoWrites cs

/-- Whether a hardware call is one on the servo object. -/
def Cmd.isServo : Cmd → Bool
  | Cmd.servoAttach _ => true
  | Cmd.servoWrite _ => true
  | Cmd.servoDetach => true
  | _ => false

/-- The attachment state of the servo object after a sequence of hardware
calls, starting from `a`. -/
def servoAfter (a : Bool) : List Cmd → Bool
  | [] => a
  | Cmd.servoAttach _ :: cs => servoAfter true cs
  | Cmd.servoDetach :: cs => servoAfter false cs
  | _ :: cs => servoAfter a cs

/-- The tones of the opening cue with their durations, as the spec lists them. -/
def openingCue : List (Int × Int) := [(262, 200), (330, 200), (392, 300), (523, 400)]

/-- The inputs of a run that opens the lid from the initial state: one reading
of 10 cm, then 47 readings of 50 cm taken 15 ms apart after the opening tune. -/
def overshootTicks : List Tick :=
  ⟨0, 10, 0⟩ :: (List.range 47).map (fun k => ⟨1320 + 15 * k, 50, 0⟩)

/-- The globals right after the call of `loop()` that leaves `CLOSED`: state
`OPENING` at `CLOSED_POS`, servo attached. -/
def justTriggered : Ctl :=
  { currentState := BinState.OPENING, currentServoPos := 140, lastServoStepTime := 0,
    attached := true }

/-- The globals right after the call of `loop()` that leaves `OPEN` on the run
`overshootTicks`: state `CLOSING` at position -1, servo attached. -/
def justWarned : Ctl :=
  { currentState := BinState.CLOSING, currentServoPos := -1, lastServoStepTime := 0,
    attached := true }

/-- What every call of `loop()` preserves: the position stays in `[-2, 140]`,
the servo is attached exactly outside `CLOSED`, and `CLOSED` is only held at
`CLOSED_POS`. -/
def Inv (s : Ctl) : Prop :=
  -2 ≤ s.currentServoPos ∧ s.currentServoPos ≤ 140 ∧
  (s.attached = true ↔ s.currentState ≠ BinState.CLOSED) ∧
  (s.currentState = BinState.CLOSED → s.currentServoPos = 140)

/-- The spec's `last_step_at` along a run: the clock value `now` of the latest
call of `loop()`, among the first `n`, that changed the position; before any
such call it is the initial value of `lastServoStepTime`. -/
def last_step_at (s : Ctl) (inp : Nat → Tick) : Nat → Nat
  | 0 => s.lastServoStepTime
  | n + 1 =>
    if (run s inp (n + 1)).currentServoPos ≠ (run s inp n).currentServoPos then (inp n).now
    else last_step_at s inp n

/-- The timing of one call of `loop()`: `gap` is the time that passes between
the return of the previous call (or the end of `setup()`) and this call's
`millis()` of line 52, `sense` the time `getDistance()` takes, `distance` what
it returns. -/
structure Call where
  gap : Nat
  sense : Nat
  distance : Int
  deriving DecidableEq, Repr

/-- One call of `loop()` with the clock made explicit: `millis()` reads the
clock and `delay(ms)` advances it by `ms`.  The pair is the globals and the
clock at the moment the call returns. -/
def timedStep (w : Ctl × Nat) (c : Call) : (Ctl × Nat) × List Cmd :=
  let now := w.2 + c.gap
  let r := loop w.1 ⟨now, c.distance, now + c.sense⟩
  ((r.1, now + c.sense + delayTotal r.2), r.2)

/-- The globals and the clock after the first `n` calls of `loop()`, the clock
starting at 0 when `setup()` ends. -/
def timedRun (calls : Nat → Call) : Nat → Ctl × Nat
  | 0 => (setup.1, 0)
  | n + 1 => (timedStep (timedRun calls n) (calls n)).1

/-- What call number `n` of a timed run reads: the clock at its start, the
distance, and the clock after `getDistance()`. -/
def timedInputs (calls : Nat → Call) (n : Nat) : Tick :=
  ⟨(timedRun calls n).2 + (calls n).gap, (calls n).distance,
   (timedRun calls n).2 + (calls n).gap + (calls n).sense⟩

/-- A timed run in which every call of `loop()` starts the moment the one
before returns and the sensor answers at once: a reading of 10 cm, then
readings of 50 cm. -/
def backToBack (k : Nat) : Call :=
  if k = 0 then ⟨0, 0, 10⟩ else ⟨0, 0, 50⟩

/-- The values passed to `analogWrite` on `pin`, in order. -/
def analogWrites (pin : Int) : List Cmd → List Int
  | [] => []
  | Cmd.analogWrite q v :: cs => if q = pin then v :: analogWrites pin cs else analogWrites pin cs
  | _ :: cs => analogWrites pin cs

/-- The levels passed to `digitalWrite` on `pin`, in order (`true` is `HIGH`). -/
def digitalWrites (pin : Int) : List Cmd → List Bool
  | [] => []
  | Cmd.digitalWrite q b :: cs =>
    if q = pin then b :: digitalWrites pin cs else digitalWrites pin cs
  | _ :: cs => digitalWrites pin cs

/-- The inputs of a run that takes the position to -2: open fully (position
-1), sit in `OPEN`, close for two steps (position 1), reopen on a reading of
15 cm, and take one opening step. -/
def minusTwoTicks : List Tick :=
  overshootTicks ++ [⟨2025, 50, 0⟩, ⟨2025, 50, 0⟩, ⟨8735, 50, 0⟩, ⟨8750, 50, 0⟩,
    ⟨8765, 15, 0⟩, ⟨8765, 50, 0⟩]

/-- The inputs of a run through a whole cycle: open fully, sit in `OPEN`, and
close without a reopen reading until the state is `CLOSED` again. -/
def fullCycleTicks : List Tick :=
  overshootTicks ++ [⟨2025, 50, 0⟩, ⟨2025, 50, 0⟩]
    ++ (List.range 142).map (fun k => ⟨8735 + 15 * k, 50, 0⟩)

/-- A timed run like `backToBack` whose first call starts 100 ms later. -/
def lateStart (k : Nat) : Call :=
  if k = 0 then ⟨100, 0, 10⟩ else ⟨0, 0, 50⟩

/-! ## One call of `loop()`, state by state -/

theorem loop_closed_trigger (s : Ctl) (i : Tick) (h : s.currentState = BinState.CLOSED)
    (hd : i.distance > 0 ∧ i.distance ≤ 35) :
    loop s i = ({ s with currentState := BinState.OPENING, attached := true },
      [Cmd.digitalWrite blueLed true] ++ smoothDimToBright redLed 2000 i.dimMillis
        ++ [Cmd.digitalWrite greenLed false] ++ playOpeningTune ++ [Cmd.servoAttach servoPin]) := by
  simp only [loop, h, hd, and_self, if_true]

theorem loop_closed_idle (s : Ctl) (i : Tick) (h : s.currentState = BinState.CLOSED)
    (hd : ¬ (i.distance > 0 ∧ i.distance ≤ 35)) :
    loop s i = (s, [Cmd.digitalWrite blueLed true] ++ smoothDimToBright redLed 2000 i.dimMillis
        ++ [Cmd.digitalWrite greenLed false]) := by
  simp only [loop, h, hd, if_false]

theorem loop_opening_step (s : Ctl) (i : Tick) (h : s.currentState = BinState.OPENING)
    (hp : s.currentServoPos > OPEN_POS) :
    loop s i = ({ s with currentServoPos := s.currentServoPos - OPEN_SPEED },
      [Cmd.digitalWrite blueLed false, Cmd.digitalWrite redLed false,
        Cmd.digitalWrite greenLed (decide ((i.now / 100) % 2 = 0))]
        ++ [Cmd.servoWrite (s.currentServoPos - OPEN_SPEED), Cmd.delay SERVO_STEP_DELAY]) := by
  simp only [loop, h, hp, if_true]

theorem loop_opening_done (s : Ctl) (i : Tick) (h : s.currentState = BinState.OPENING)
    (hp : ¬ s.currentServoPos > OPEN_POS) :
    loop s i = ({ s with currentState := BinState.OPEN },
      [Cmd.digitalWrite blueLed false, Cmd.digitalWrite redLed false,
        Cmd.digitalWrite greenLed (decide ((i.now / 100) % 2 = 0))]
        ++ [Cmd.digitalWrite greenLed true]) := by
  simp only [loop, h, hp, if_false]

theorem loop_open (s : Ctl) (i : Tick) (h : s.currentState = BinState.OPEN) :
    loop s i = ({ s with currentState := BinState.CLOSING },
      [Cmd.delay 5000] ++ greenWarningWithBeep) := by
  simp only [loop, h]

theorem loop_closing_reopen (s : Ctl) (i : Tick) (h : s.currentState = BinState.CLOSING)
    (hd : i.distance > 0 ∧ i.distance ≤ 20) :
    loop s i = ({ s with currentState := BinState.OPENING },
      [Cmd.digitalWrite greenLed false,
        Cmd.digitalWrite redLed (decide ((i.now / 300) % 2 = 0))]) := by
  simp only [loop, h, hd, and_self, if_true]

theorem loop_closing_step (s : Ctl) (i : Tick) (h : s.currentState = BinState.CLOSING)
    (hd : ¬ (i.distance > 0 ∧ i.distance ≤ 20)) (hp : s.currentServoPos < CLOSED_POS) :
    loop s i = ({ s with currentServoPos := s.currentServoPos + CLOSE_SPEED },
      [Cmd.digitalWrite greenLed false,
        Cmd.digitalWrite redLed (decide ((i.now / 300) % 2 = 0))]
        ++ [Cmd.servoWrite (s.currentServoPos + CLOSE_SPEED), Cmd.delay SERVO_STEP_DELAY]) := by
  simp only [loop, h, hd, hp, if_false, if_true]

theorem loop_closing_done (s : Ctl) (i : Tick) (h : s.currentState = BinState.CLOSING)
    (hd : ¬ (i.distance > 0 ∧ i.distance ≤ 20)) (hp : ¬ s.currentServoPos < CLOSED_POS) :
    loop s i = ({ s with currentState := BinState.CLOSED, attached := false },
      [Cmd.digitalWrite greenLed false,
        Cmd.digitalWrite redLed (decide ((i.now / 300) % 2 = 0))]
        ++ blinkAllLeds 2 400 ++ [Cmd.servoDetach, Cmd.digitalWrite redLed false,
         Cmd.digitalWrite greenLed false, Cmd.digitalWrite blueLed true]) := by
  simp only [loop, h, hd, hp, if_false]

/-! ## The feedback routines, evaluated -/

theorem playOpeningTune_eq : playOpeningTune =
    [Cmd.tone buzzer 262 200, Cmd.delay 240, Cmd.tone buzzer 330 200, Cmd.delay 240,
     Cmd.tone buzzer 392 300, Cmd.delay 360, Cmd.tone buzzer 523 400, Cmd.delay 480,
     Cmd.noTone buzzer] := by
  decide

theorem rampUp_eq : rampUp 0 =
    [Cmd.analogWrite greenLed 0, Cmd.delay 10, Cmd.analogWrite greenLed 25, Cmd.delay 10,
     Cmd.analogWrite greenLed 50, Cmd.delay 10, Cmd.analogWrite greenLed 75, Cmd.delay 10,
     Cmd.analogWrite greenLed 100, Cmd.delay 10, Cmd.analogWrite greenLed 125, Cmd.delay 10,
     Cmd.analogWrite greenLed 150, Cmd.delay 10, Cmd.analogWrite greenLed 175, Cmd.delay 10,
     Cmd.analogWrite greenLed 200, Cmd.delay 10, Cmd.analogWrite greenLed 225, Cmd.delay 10,
     Cmd.analogWrite greenLed 250, Cmd.delay 10] := by
  simp [rampUp]

theorem rampDown_eq : rampDown 255 =
    [Cmd.analogWrite greenLed 255, Cmd.delay 10, Cmd.analogWrite greenLed 230, Cmd.delay 10,
     Cmd.analogWrite greenLed 205, Cmd.delay 10, Cmd.analogWrite greenLed 180, Cmd.delay 10,
     Cmd.analogWrite greenLed 155, Cmd.delay 10, Cmd.analogWrite greenLed 130, Cmd.delay 10,
     Cmd.analogWrite greenLed 105, Cmd.delay 10, Cmd.analogWrite greenLed 80, Cmd.delay 10,
     Cmd.analogWrite greenLed 55, Cmd.delay 10, Cmd.analogWrite greenLed 30, Cmd.delay 10,
     Cmd.analogWrite greenLed 5, Cmd.delay 10] := by
  simp [rampDown]

theorem warningRounds_eq : warningRounds 0 = warningRound ++ (warningRound ++ warningRound) := by
  simp [warningRounds]

theorem blinkAllLeds_eq : blinkAllLeds 2 400 =
    [Cmd.digitalWrite redLed true, Cmd.digitalWrite greenLed true,
     Cmd.digitalWrite blueLed true, Cmd.delay 200,
     Cmd.digitalWrite redLed false, Cmd.digitalWrite greenLed false,
     Cmd.digitalWrite blueLed false, Cmd.delay 200,
     Cmd.digitalWrite redLed true, Cmd.digitalWrite greenLed true,
     Cmd.digitalWrite blueLed true, Cmd.delay 200,
     Cmd.digitalWrite redLed false, Cmd.digitalWrite greenLed false,
     Cmd.digitalWrite blueLed false, Cmd.delay 200] := by
  simp [blinkAllLeds, blinkAllLedsFrom]
  decide

theorem delayTotal_append (xs ys : List Cmd) :
    delayTotal (xs ++ ys) = delayTotal xs + delayTotal ys := by
  induction xs with
  | nil => simp [delayTotal]
  | cons c cs ih => cases c <;> simp [delayTotal, ih, Nat.add_assoc]

theorem tonesOf_append (xs ys : List Cmd) :
    tonesOf (xs ++ ys) = tonesOf xs ++ tonesOf ys := by
  induction xs with
  | nil => simp [tonesOf]
  | cons c cs ih => cases c <;> simp [tonesOf, ih]

theorem servoWrites_append (xs ys : List Cmd) :
    servoWrites (xs ++ ys) = servoWrites xs ++ servoWrites ys := by
  induction xs with
  | nil => simp [servoWrites]
  | cons c cs ih => cases c <;> simp [servoWrites, ih]

theorem delayTotal_warningRound : delayTotal warningRound = 570 := by
  simp [warningRound, rampUp_eq, rampDown_eq, delayTotal]

theorem delayTotal_greenWarningWithBeep : delayTotal greenWarningWithBeep = 1710 := by
  simp [greenWarningWithBeep, warningRounds_eq, delayTotal_append, delayTotal_warningRound,
    delayTotal]

theorem tonesOf_warningRound : tonesOf warningRound = [(700, 200)] := by
  simp [warningRound, rampUp_eq, rampDown_eq, tonesOf]

theorem tonesOf_greenWarningWithBeep :
    tonesOf greenWarningWithBeep = [(700, 200), (700, 200), (700, 200)] := by
  simp [greenWarningWithBeep, warningRounds_eq, tonesOf_append, tonesOf_warningRound, tonesOf]

/-! ## Runs -/

theorem exec_append (s : Ctl) (xs ys : List Tick) :
    exec s (xs ++ ys) = exec (exec s xs) ys := by
  induction xs generalizing s with
  | nil => rfl
  | cons i xs ih => simp [exec, ih]

theorem reachable_setup : Reachable setup.1 := ⟨[], rfl⟩

theorem reachable_loop (s : Ctl) (i : Tick) (h : Reachable s) : Reachable (loop s i).1 := by
  obtain ⟨ticks, ht⟩ := h
  refine ⟨ticks ++ [i], ?_⟩
  rw [exec_append, ht]
  rfl

theorem reachable_run (s : Ctl) (inp : Nat → Tick) (n : Nat) (h : Reachable s) :
    Reachable (run s inp n) := by
  induction n with
  | zero => exact h
  | succ n ih => exact reachable_loop _ _ ih

theorem inv_setup : Inv setup.1 := by
  simp [Inv, setup, CLOSED_POS]

theorem inv_loop (s : Ctl) (i : Tick) (h : Inv s) : Inv (loop s i).1 := by
  obtain ⟨h1, h2, h3, h4⟩ := h
  cases hs : s.currentState with
  | CLOSED =>
    by_cases hd : i.distance > 0 ∧ i.distance ≤ 35
    · rw [loop_closed_trigger s i hs hd]
      simp [Inv, h1, h2]
    · rw [loop_closed_idle s i hs hd]
      exact ⟨h1, h2, h3, h4⟩
  | OPENING =>
    by_cases hp : s.currentServoPos > OPEN_POS
    · rw [loop_opening_step s i hs hp]
      simp only [OPEN_POS, OPEN_SPEED] at hp ⊢
      simp only [hs, ne_eq, reduceCtorEq, not_false_eq_true, iff_true] at h3
      refine ⟨by simp only; omega, by simp only; omega, ?_, ?_⟩ <;> simp [hs, h3]
    · rw [loop_opening_done s i hs hp]
      simp only [hs, ne_eq, reduceCtorEq, not_false_eq_true, iff_true] at h3
      refine ⟨h1, h2, ?_, ?_⟩ <;> simp [h3]
  | OPEN =>
    rw [loop_open s i hs]
    simp only [hs, ne_eq, reduceCtorEq, not_false_eq_true, iff_true] at h3
    refine ⟨h1, h2, ?_, ?_⟩ <;> simp [h3]
  | CLOSING =>
    simp only [hs, ne_eq, reduceCtorEq, not_false_eq_true, iff_true] at h3
    by_cases hd : i.distance > 0 ∧ i.distance ≤ 20
    · rw [loop_closing_reopen s i hs hd]
      refine ⟨h1, h2, ?_, ?_⟩ <;> simp [h3]
    · by_cases hp : s.currentServoPos < CLOSED_POS
      · rw [loop_closing_step s i hs hd hp]
        simp only [CLOSED_POS, CLOSE_SPEED] at hp ⊢
        refine ⟨by simp only; omega, by simp only; omega, ?_, ?_⟩ <;> simp [hs, h3]
      · rw [loop_closing_done s i hs hd hp]
        simp only [CLOSED_POS] at hp
        refine ⟨h1, h2, ?_, ?_⟩
        · simp
        · intro _
          simp only
          omega

theorem inv_exec (s : Ctl) (ticks : List Tick) (h : Inv s) : Inv (exec s ticks) := by
  induction ticks generalizing s with
  | nil => exact h
  | cons i ticks ih => exact ih _ (inv_loop s i h)

theorem inv_of_reachable (s : Ctl) (h : Reachable s) : Inv s := by
  obtain ⟨ticks, rfl⟩ := h
  exact inv_exec _ _ inv_setup

/-- While the position is above `OPEN_POS`, `k` calls of `loop()` in `OPENING`
lower it by `3 * k`, whatever the inputs. -/
theorem run_opening (s : Ctl) (inp : Nat → Tick) (k : Nat)
    (hs : s.currentState = BinState.OPENING)
    (hp : ∀ j : Nat, j < k → s.currentServoPos - 3 * j > 0) :
    run s inp k = { s with currentServoPos := s.currentServoPos - 3 * k } := by
  induction k with
  | zero => simp [run]
  | succ k ih =>
    have ih1 := ih (fun j hj => hp j (Nat.lt_succ_of_lt hj))
    have hk := hp k (Nat.lt_succ_self k)
    rw [run, ih1, loop_opening_step _ (inp k) (by exact hs) (by simpa [OPEN_POS] using hk)]
    simp only [OPEN_SPEED]
    congr 1
    push_cast
    ring

/-- Without a reopen reading, `k` calls of `loop()` in `CLOSING` raise the
position by `k` as long as that stays within `CLOSED_POS`. -/
theorem run_closing (s : Ctl) (inp : Nat → Tick) (k : Nat)
    (hs : s.currentState = BinState.CLOSING)
    (hd : ∀ j : Nat, j < k → ¬ ((inp j).distance > 0 ∧ (inp j).distance ≤ 20))
    (hp : s.currentServoPos + k ≤ 140) :
    run s inp k = { s with currentServoPos := s.currentServoPos + k } := by
  induction k with
  | zero => simp [run]
  | succ k ih =>
    have ih1 := ih (fun j hj => hd j (Nat.lt_succ_of_lt hj)) (by push_cast at hp; omega)
    have hk := hd k (Nat.lt_succ_self k)
    rw [run, ih1, loop_closing_step _ (inp k) (by exact hs) hk
      (by simp only [CLOSED_POS]; push_cast at hp; omega)]
    simp only [CLOSE_SPEED]
    congr 1
    push_cast
    ring

/-! ## Position range (C1) -/

/-- C1 (fails on the code): the claim says the position, which is also the
value written to the servo, stays in `[0, 140]` after every call of `loop()`
from the initial state.  On the run `overshootTicks` (a reading of 10 cm, then
47 more calls) the globals are reachable, the state is still `OPENING`, the
position is `-1`, and the last call passed `-1` to `myServo.write`: the guard
`currentServoPos > OPEN_POS` lets the step of `OPEN_SPEED = 3` take the
position from 2 to -1. -/
theorem position_below_open_pos :
    Reachable (exec setup.1 overshootTicks) ∧
    (exec setup.1 overshootTicks.dropLast).currentServoPos = 2 ∧
    (exec setup.1 overshootTicks).currentState = BinState.OPENING ∧
    (exec setup.1 overshootTicks).currentServoPos = -1 ∧
    servoWrites (loop (exec setup.1 overshootTicks.dropLast) ⟨2010, 50, 0⟩).2 = [-1] ∧
    ¬ (0 ≤ (exec setup.1 overshootTicks).currentServoPos ∧
        (exec setup.1 overshootTicks).currentServoPos ≤ 140) := by
  refine ⟨⟨overshootTicks, rfl⟩, ?_, ?_, ?_, ?_, ?_⟩ <;> decide

/-! ## Single calls of `loop()` (C2, C3) -/

/-- C2: a call of `loop()` in `CLOSED`.  With a reading `0 < d ≤ 35` the next
state is `OPENING` and the servo is attached (by an `attach` call); with any
other reading (above 35, zero, negative) the state stays `CLOSED`, the position
and the attachment of the servo are unchanged, so a detached servo stays
detached, and no call on the servo is issued. -/
theorem closed_tick (s : Ctl) (i : Tick) (h : s.currentState = BinState.CLOSED) :
    ((0 < i.distance ∧ i.distance ≤ 35) →
      (loop s i).1.currentState = BinState.OPENING ∧ (loop s i).1.attached = true ∧
      Cmd.servoAttach servoPin ∈ (loop s i).2) ∧
    (¬ (0 < i.distance ∧ i.distance ≤ 35) →
      (loop s i).1.currentState = BinState.CLOSED ∧
      (loop s i).1.currentServoPos = s.currentServoPos ∧
      (loop s i).1.attached = s.attached ∧
      (s.attached = false → (loop s i).1.attached = false) ∧
      (∀ c ∈ (loop s i).2, c.isServo = false)) := by
  constructor
  · intro hd
    rw [loop_closed_trigger s i h hd]
    simp
  · intro hd
    rw [loop_closed_idle s i h hd]
    refine ⟨h, rfl, rfl, fun ha => ha, ?_⟩
    intro c hc
    simp only [smoothDimToBright, List.cons_append, List.nil_append, List.mem_cons,
      List.mem_singleton, List.not_mem_nil, or_false] at hc
    rcases hc with rfl | rfl | rfl <;> rfl

/-- C2 at concrete inputs: from the state after `setup()`, a reading of 10 cm
opens, and readings of 36 cm, 0 (no echo) and -5 keep the lid closed with the
servo detached. -/
theorem closed_tick_witness :
    ((loop setup.1 ⟨0, 10, 0⟩).1.currentState = BinState.OPENING ∧
      (loop setup.1 ⟨0, 10, 0⟩).1.attached = true ∧
      Cmd.servoAttach servoPin ∈ (loop setup.1 ⟨0, 10, 0⟩).2) ∧
    (loop setup.1 ⟨0, 36, 0⟩).1.currentState = BinState.CLOSED ∧
    (loop setup.1 ⟨0, 0, 0⟩).1.attached = false ∧
    (loop setup.1 ⟨0, -5, 0⟩).1.currentServoPos = 140 :=
  ⟨(closed_tick setup.1 ⟨0, 10, 0⟩ rfl).1 (by decide),
   ((closed_tick setup.1 ⟨0, 36, 0⟩ rfl).2 (by decide)).1,
   ((closed_tick setup.1 ⟨0, 0, 0⟩ rfl).2 (by decide)).2.2.2.1 rfl,
   ((closed_tick setup.1 ⟨0, -5, 0⟩ rfl).2 (by decide)).2.1⟩

/-- C3: a call of `loop()` in `CLOSING` at any position with a reading
`0 < d ≤ 20` sets the state to `OPENING`, leaves the position as it was, issues
no `myServo.write` (no call on the servo at all), and leaves the servo attached
if it was. -/
theorem closing_reopen_tick (s : Ctl) (i : Tick) (h : s.currentState = BinState.CLOSING)
    (hd : 0 < i.distance ∧ i.distance ≤ 20) :
    (loop s i).1.currentState = BinState.OPENING ∧
    (loop s i).1.currentServoPos = s.currentServoPos ∧
    servoWrites (loop s i).2 = [] ∧
    (∀ c ∈ (loop s i).2, c.isServo = false) ∧
    (loop s i).1.attached = s.attached ∧
    (s.attached = true → (loop s i).1.attached = true) := by
  rw [loop_closing_reopen s i h hd]
  refine ⟨rfl, rfl, rfl, ?_, rfl, fun ha => ha⟩
  intro c hc
  simp only [List.mem_cons, List.mem_singleton, List.not_mem_nil, or_false] at hc
  rcases hc with rfl | rfl <;> rfl

/-- C3 at a concrete input: `CLOSING` at position 77 with a reading of 15 cm. -/
theorem closing_reopen_tick_witness :
    (loop ⟨BinState.CLOSING, 77, 0, true⟩ ⟨300, 15, 0⟩).1.currentState = BinState.OPENING ∧
    (loop ⟨BinState.CLOSING, 77, 0, true⟩ ⟨300, 15, 0⟩).1.currentServoPos = 77 ∧
    servoWrites (loop ⟨BinState.CLOSING, 77, 0, true⟩ ⟨300, 15, 0⟩).2 = [] ∧
    (loop ⟨BinState.CLOSING, 77, 0, true⟩ ⟨300, 15, 0⟩).1.attached = true :=
  have h := closing_reopen_tick ⟨BinState.CLOSING, 77, 0, true⟩ ⟨300, 15, 0⟩ rfl (by decide)
  ⟨h.1, h.2.1, h.2.2.1, h.2.2.2.2.2 rfl⟩

/-! ## Opening and closing runs (C4, C5) -/

/-- From `OPENING` at any position, whatever the inputs, the state stays
`OPENING` while the position steps down by 3, and the call after the last step
sets the state to `OPEN`; the position then is at most 0, and at least -2 when
the run started at a non-negative position. -/
theorem opening_reaches_open (s : Ctl) (inp : Nat → Tick)
    (hs : s.currentState = BinState.OPENING) :
    (∀ k : Nat, k ≤ ((s.currentServoPos + 2) / 3).toNat →
      run s inp k = { s with currentServoPos := s.currentServoPos - 3 * k }) ∧
    run s inp (((s.currentServoPos + 2) / 3).toNat + 1) =
      { s with currentState := BinState.OPEN,
               currentServoPos := s.currentServoPos - 3 * ((s.currentServoPos + 2) / 3).toNat } ∧
    s.currentServoPos - 3 * ((s.currentServoPos + 2) / 3).toNat ≤ 0 ∧
    (0 ≤ s.currentServoPos → -2 ≤ s.currentServoPos - 3 * ((s.currentServoPos + 2) / 3).toNat) := by
  have hrun : ∀ k : Nat, k ≤ ((s.currentServoPos + 2) / 3).toNat →
      run s inp k = { s with currentServoPos := s.currentServoPos - 3 * k } := by
    intro k hk
    apply run_opening s inp k hs
    intro j hj
    omega
  refine ⟨hrun, ?_, by omega, by omega⟩
  rw [run, hrun _ (Nat.le_refl _), loop_opening_done _ _ (by exact hs)
    (by simp only [OPEN_POS]; omega)]

/-- C4 (fails on the code): the claim says that from `OPENING` at any position
in `[0, 140]`, in particular 140, some number of calls ends in `OPEN` at
position exactly 0.  From `OPENING` at 140 (the state `justTriggered`, which
the first reading of 10 cm produces), whatever the inputs, the state is
`OPENING` with position `140 - 3k` after `k ≤ 47` calls, and after 48 calls it
is `OPEN` at position -1; so no number of calls gives `OPEN` at position 0 with
`OPENING` after every earlier call. -/
theorem opening_from_closed_pos_ends_at_minus_one (inp : Nat → Tick) :
    (loop setup.1 ⟨0, 10, 0⟩).1 = justTriggered ∧
    (∀ k : Nat, k ≤ 47 → (run justTriggered inp k).currentState = BinState.OPENING ∧
      (run justTriggered inp k).currentServoPos = 140 - 3 * k) ∧
    (run justTriggered inp 48).currentState = BinState.OPEN ∧
    (run justTriggered inp 48).currentServoPos = -1 ∧
    ¬ ∃ n : Nat, (run justTriggered inp n).currentState = BinState.OPEN ∧
      (run justTriggered inp n).currentServoPos = 0 ∧
      ∀ k : Nat, k < n → (run justTriggered inp k).currentState = BinState.OPENING := by
  have h := opening_reaches_open justTriggered inp rfl
  have e : ((justTriggered.currentServoPos + 2) / 3).toNat = 47 := by decide
  rw [e] at h
  have h47 : ∀ k : Nat, k ≤ 47 → (run justTriggered inp k).currentState = BinState.OPENING ∧
      (run justTriggered inp k).currentServoPos = 140 - 3 * k := by
    intro k hk
    rw [h.1 k hk]
    exact ⟨rfl, rfl⟩
  have h48 : (run justTriggered inp 48).currentState = BinState.OPEN ∧
      (run justTriggered inp 48).currentServoPos = -1 := by
    rw [h.2.1]
    exact ⟨rfl, by decide⟩
  refine ⟨by decide, h47, h48.1, h48.2, ?_⟩
  rintro ⟨n, hn1, hn2, hn3⟩
  rcases Nat.lt_trichotomy n 48 with hlt | heq | hgt
  · have := (h47 n (by omega)).1
    rw [this] at hn1
    exact absurd hn1 (by decide)
  · subst heq
    rw [h48.2] at hn2
    exact absurd hn2 (by decide)
  · have := hn3 48 hgt
    rw [h48.1] at this
    exact absurd this (by decide)

/-- C5: from a reachable state in `CLOSING`, with no reading in `(0, 20]`
among the inputs used, the position rises by one per call while the state stays
`CLOSING` and the servo stays attached; each of these calls writes the new
position to the servo and does not detach it.  The call made at position 140
sets the state to `CLOSED` with position exactly 140, and it is this call that
detaches the servo. -/
theorem closing_reaches_closed (s : Ctl) (inp : Nat → Tick) (hr : Reachable s)
    (hs : s.currentState = BinState.CLOSING)
    (hd : ∀ j : Nat, (j : Int) ≤ 140 - s.currentServoPos →
      ¬ ((inp j).distance > 0 ∧ (inp j).distance ≤ 20)) :
    (∀ k : Nat, (k : Int) ≤ 140 - s.currentServoPos →
      (run s inp k).currentState = BinState.CLOSING ∧
      (run s inp k).currentServoPos = s.currentServoPos + k ∧
      (run s inp k).attached = true) ∧
    (∀ k : Nat, (k : Int) < 140 - s.currentServoPos →
      servoWrites (emitted s inp k) = [s.currentServoPos + k + 1] ∧
      Cmd.servoDetach ∉ emitted s inp k) ∧
    (run s inp ((140 - s.currentServoPos).toNat + 1)).currentState = BinState.CLOSED ∧
    (run s inp ((140 - s.currentServoPos).toNat + 1)).currentServoPos = 140 ∧
    (run s inp ((140 - s.currentServoPos).toNat + 1)).attached = false ∧
    Cmd.servoDetach ∈ emitted s inp (140 - s.currentServoPos).toNat := by
  obtain ⟨-, h140, hatt, -⟩ := inv_of_reachable s hr
  have ha : s.attached = true := hatt.2 (by rw [hs]; decide)
  have hrun : ∀ k : Nat, (k : Int) ≤ 140 - s.currentServoPos →
      run s inp k = { s with currentServoPos := s.currentServoPos + k } := by
    intro k hk
    exact run_closing s inp k hs (fun j hj => hd j (by omega)) (by omega)
  have hlast : loop (run s inp (140 - s.currentServoPos).toNat)
      (inp (140 - s.currentServoPos).toNat) = _ :=
    loop_closing_done (run s inp (140 - s.currentServoPos).toNat)
      (inp (140 - s.currentServoPos).toNat)
      (by rw [hrun _ (by omega)]; exact hs) (hd _ (by omega))
      (by rw [hrun _ (by omega)]; simp only [CLOSED_POS]; omega)
  refine ⟨?_, ?_, ?_, ?_, ?_, ?_⟩
  · intro k hk
    rw [hrun k hk]
    exact ⟨hs, rfl, ha⟩
  · intro k hk
    have hstep := loop_closing_step (run s inp k) (inp k)
      (by rw [hrun k (by omega)]; exact hs) (hd k (by omega))
      (by rw [hrun k (by omega)]; simp only [CLOSED_POS]; omega)
    rw [emitted, hstep, hrun k (by omega)]
    simp [servoWrites, CLOSE_SPEED]
  · rw [run, hlast]
  · rw [run, hlast, hrun _ (by omega)]
    simp only
    omega
  · rw [run, hlast]
  · rw [emitted, hlast]
    simp

/-- C5 at a concrete input: `justWarned` (`CLOSING` at position -1) is
reachable, and with readings of 0 throughout the state is still `CLOSING`, with
the servo attached, after 141 calls, and `CLOSED` at 140 with the servo
detached after 142. -/
theorem closing_reaches_closed_witness :
    Reachable justWarned ∧
    (run justWarned (fun _ => ⟨0, 0, 0⟩) 141).currentState = BinState.CLOSING ∧
    (run justWarned (fun _ => ⟨0, 0, 0⟩) 141).attached = true ∧
    (run justWarned (fun _ => ⟨0, 0, 0⟩) 142).currentState = BinState.CLOSED ∧
    (run justWarned (fun _ => ⟨0, 0, 0⟩) 142).currentServoPos = 140 ∧
    (run justWarned (fun _ => ⟨0, 0, 0⟩) 142).attached = false :=
  have hr : Reachable justWarned :=
    ⟨overshootTicks ++ [⟨2025, 50, 0⟩, ⟨2040, 50, 0⟩], by rfl⟩
  have h := closing_reaches_closed justWarned (fun _ => ⟨0, 0, 0⟩) hr rfl
    (fun _ _ h0 => absurd h0.1 (show ¬ ((0 : Int) > 0) by decide))
  ⟨hr, (h.1 141 (by decide)).1, (h.1 141 (by decide)).2.2, h.2.2.1, h.2.2.2.1, h.2.2.2.2.1⟩

/-! ## Servo attachment (C6) -/

theorem servoAfter_append (a : Bool) (xs ys : List Cmd) :
    servoAfter a (xs ++ ys) = servoAfter (servoAfter a xs) ys := by
  induction xs generalizing a with
  | nil => rfl
  | cons c cs ih => cases c <;> simp [servoAfter, ih]

/-- The field `attached` is the attachment of the servo object that the
`attach` and `detach` calls of `setup()` and of each `loop()` call produce. -/
theorem attached_tracks_servo_calls (s : Ctl) (i : Tick) :
    setup.1.attached = servoAfter false setup.2 ∧
    (loop s i).1.attached = servoAfter s.attached (loop s i).2 := by
  refine ⟨by decide, ?_⟩
  cases hs : s.currentState with
  | CLOSED =>
    by_cases hd : i.distance > 0 ∧ i.distance ≤ 35
    · rw [loop_closed_trigger s i hs hd]
      simp [servoAfter, smoothDimToBright, playOpeningTune_eq]
    · rw [loop_closed_idle s i hs hd]
      simp [servoAfter, smoothDimToBright]
  | OPENING =>
    by_cases hp : s.currentServoPos > OPEN_POS
    · rw [loop_opening_step s i hs hp]
      simp [servoAfter]
    · rw [loop_opening_done s i hs hp]
      simp [servoAfter]
  | OPEN =>
    rw [loop_open s i hs]
    simp [servoAfter, greenWarningWithBeep, warningRounds_eq, warningRound, rampUp_eq,
      rampDown_eq]
  | CLOSING =>
    by_cases hd : i.distance > 0 ∧ i.distance ≤ 20
    · rw [loop_closing_reopen s i hs hd]
      simp [servoAfter]
    · by_cases hp : s.currentServoPos < CLOSED_POS
      · rw [loop_closing_step s i hs hd hp]
        simp [servoAfter]
      · rw [loop_closing_done s i hs hd hp]
        simp [servoAfter, blinkAllLeds_eq]

/-- C6: in the state that `setup()` leaves and after every finite sequence of
`loop()` calls from it, the servo is attached if and only if the state is not
`CLOSED`. -/
theorem servo_attached_iff_not_closed (ticks : List Tick) :
    (setup.1.attached = true ↔ setup.1.currentState ≠ BinState.CLOSED) ∧
    ((exec setup.1 ticks).attached = true ↔
      (exec setup.1 ticks).currentState ≠ BinState.CLOSED) :=
  ⟨inv_setup.2.2.1, (inv_exec setup.1 ticks inv_setup).2.2.1⟩

/-! ## The `OPEN` state (C7) and the unread distance (C8) -/

/-- C7: a call of `loop()` in `OPEN` first issues `delay(5000)`, then the whole
warning sequence, and only then sets the state to `CLOSING`; the delays of that
call add up to exactly `5000 + 3 * (11 * 10 + 200 + 11 * 10 + 150) = 6710` ms,
for every input, so no call leaves `OPEN` after less. -/
theorem open_tick_delay (s : Ctl) (i : Tick) (h : s.currentState = BinState.OPEN) :
    (loop s i).1.currentState = BinState.CLOSING ∧
    (loop s i).2 = Cmd.delay 5000 :: greenWarningWithBeep ∧
    delayTotal greenWarningWithBeep = 3 * (11 * 10 + 200 + 11 * 10 + 150) ∧
    delayTotal (loop s i).2 = 5000 + 3 * (11 * 10 + 200 + 11 * 10 + 150) ∧
    delayTotal (loop s i).2 = 6710 := by
  rw [loop_open s i h]
  refine ⟨rfl, rfl, delayTotal_greenWarningWithBeep, ?_, ?_⟩ <;>
    simp [delayTotal, delayTotal_greenWarningWithBeep]

/-- C7 at a concrete input: `OPEN` at position -1, as reached from the initial
state. -/
theorem open_tick_delay_witness :
    (loop ⟨BinState.OPEN, -1, 0, true⟩ ⟨2025, 50, 0⟩).1.currentState = BinState.CLOSING ∧
    delayTotal (loop ⟨BinState.OPEN, -1, 0, true⟩ ⟨2025, 50, 0⟩).2 = 6710 :=
  have h := open_tick_delay ⟨BinState.OPEN, -1, 0, true⟩ ⟨2025, 50, 0⟩ rfl
  ⟨h.1, h.2.2.2.2⟩

/-- C8: in `OPENING` and in `OPEN` the distance is not read: two calls of
`loop()` that differ only in the reading give the same globals (state,
position, attachment) and the same hardware calls. -/
theorem opening_open_ignore_distance (s : Ctl) (now dimMillis : Nat) (d1 d2 : Int)
    (h : s.currentState = BinState.OPENING ∨ s.currentState = BinState.OPEN) :
    loop s ⟨now, d1, dimMillis⟩ = loop s ⟨now, d2, dimMillis⟩ := by
  rcases h with h | h <;> simp only [loop, h]

/-- C8 at concrete inputs: `OPENING` at 140 with readings 5 and 400, and `OPEN`
at 0 with readings 5 and 0. -/
theorem opening_open_ignore_distance_witness :
    loop justTriggered ⟨1400, 5, 0⟩ = loop justTriggered ⟨1400, 400, 0⟩ ∧
    loop ⟨BinState.OPEN, 0, 0, true⟩ ⟨9000, 5, 0⟩ = loop ⟨BinState.OPEN, 0, 0, true⟩ ⟨9000, 0, 0⟩ :=
  ⟨opening_open_ignore_distance justTriggered 1400 0 5 400 (Or.inl rfl),
   opening_open_ignore_distance ⟨BinState.OPEN, 0, 0, true⟩ 9000 0 5 0 (Or.inr rfl)⟩

/-! ## Step rate (C9) -/

/-- No call of `loop()` assigns `lastServoStepTime`. -/
theorem lastServoStepTime_unchanged (s : Ctl) (i : Tick) :
    (loop s i).1.lastServoStepTime = s.lastServoStepTime := by
  cases hs : s.currentState with
  | CLOSED =>
    by_cases hd : i.distance > 0 ∧ i.distance ≤ 35
    · rw [loop_closed_trigger s i hs hd]
    · rw [loop_closed_idle s i hs hd]
  | OPENING =>
    by_cases hp : s.currentServoPos > OPEN_POS
    · rw [loop_opening_step s i hs hp]
    · rw [loop_opening_done s i hs hp]
  | OPEN => rw [loop_open s i hs]
  | CLOSING =>
    by_cases hd : i.distance > 0 ∧ i.distance ≤ 20
    · rw [loop_closing_reopen s i hs hd]
    · by_cases hp : s.currentServoPos < CLOSED_POS
      · rw [loop_closing_step s i hs hd hp]
      · rw [loop_closing_done s i hs hd hp]

/-- A call of `loop()` that changes the position is made outside `CLOSED`,
writes the new position to the servo once, and then blocks in
`delay(SERVO_STEP_DELAY)`. -/
theorem advance_blocks (s : Ctl) (i : Tick)
    (h : (loop s i).1.currentServoPos ≠ s.currentServoPos) :
    s.currentState ≠ BinState.CLOSED ∧
    servoWrites (loop s i).2 = [(loop s i).1.currentServoPos] ∧
    SERVO_STEP_DELAY ≤ delayTotal (loop s i).2 := by
  cases hs : s.currentState with
  | CLOSED =>
    by_cases hd : i.distance > 0 ∧ i.distance ≤ 35
    · rw [loop_closed_trigger s i hs hd] at h
      exact absurd rfl h
    · rw [loop_closed_idle s i hs hd] at h
      exact absurd rfl h
  | OPENING =>
    by_cases hp : s.currentServoPos > OPEN_POS
    · rw [loop_opening_step s i hs hp]
      simp [servoWrites, delayTotal]
    · rw [loop_opening_done s i hs hp] at h
      exact absurd rfl h
  | OPEN =>
    rw [loop_open s i hs] at h
    exact absurd rfl h
  | CLOSING =>
    by_cases hd : i.distance > 0 ∧ i.distance ≤ 20
    · rw [loop_closing_reopen s i hs hd] at h
      exact absurd rfl h
    · by_cases hp : s.currentServoPos < CLOSED_POS
      · rw [loop_closing_step s i hs hd hp]
        simp [servoWrites, delayTotal]
      · rw [loop_closing_done s i hs hd hp] at h
        exact absurd rfl h

/-- The call of `loop()` that leaves `CLOSED` blocks for the 1320 ms of the
opening tune. -/
theorem trigger_blocks (s : Ctl) (i : Tick) (hs : s.currentState = BinState.CLOSED)
    (h : (loop s i).1.currentState ≠ BinState.CLOSED) :
    delayTotal (loop s i).2 = 1320 := by
  by_cases hd : i.distance > 0 ∧ i.distance ≤ 35
  · rw [loop_closed_trigger s i hs hd]
    simp [smoothDimToBright, playOpeningTune_eq, delayTotal]
  · rw [loop_closed_idle s i hs hd] at h
    exact absurd hs h

/-- When each call of `loop()` starts no earlier than the one before it
returns, the clock values read by the calls are non-decreasing. -/
theorem clock_mono (s : Ctl) (inp : Nat → Tick) (m : Nat)
    (ht : ∀ k : Nat, k < m → (inp k).now + delayTotal (emitted s inp k) ≤ (inp (k + 1)).now)
    (j k : Nat) (hjk : j ≤ k) (hk : k ≤ m) : (inp j).now ≤ (inp k).now := by
  induction k with
  | zero =>
    have : j = 0 := Nat.le_zero.mp hjk
    rw [this]
  | succ k ih =>
    rcases Nat.eq_or_lt_of_le hjk with heq | hlt
    · rw [heq]
    · have h1 := ih (Nat.lt_succ_iff.mp hlt) (by omega)
      have h2 := ht k (by omega)
      omega

/-- After `setup()`, a call of `loop()` that starts outside `CLOSED` starts at
least 1320 ms after the first call. -/
theorem clock_after_trigger (inp : Nat → Tick) (m : Nat)
    (ht : ∀ k : Nat, k < m →
      (inp k).now + delayTotal (emitted setup.1 inp k) ≤ (inp (k + 1)).now)
    (k : Nat) (hk : k ≤ m) (hs : (run setup.1 inp k).currentState ≠ BinState.CLOSED) :
    1320 ≤ (inp k).now := by
  induction k with
  | zero => exact absurd rfl hs
  | succ k ih =>
    have h2 := ht k (by omega)
    by_cases hc : (run setup.1 inp k).currentState = BinState.CLOSED
    · have h3 := trigger_blocks (run setup.1 inp k) (inp k) hc hs
      rw [emitted, h3] at h2
      omega
    · have h1 := ih (by omega) hc
      omega

/-- The value `last_step_at` is either still the initial `lastServoStepTime`
or the clock value of an earlier call of `loop()` that changed the position. -/
theorem last_step_at_cases (s : Ctl) (inp : Nat → Tick) (m : Nat) :
    last_step_at s inp m = s.lastServoStepTime ∨
    ∃ k : Nat, k < m ∧
      (run s inp (k + 1)).currentServoPos ≠ (run s inp k).currentServoPos ∧
      last_step_at s inp m = (inp k).now := by
  induction m with
  | zero => exact Or.inl rfl
  | succ m ih =>
    by_cases h : (run s inp (m + 1)).currentServoPos ≠ (run s inp m).currentServoPos
    · refine Or.inr ⟨m, Nat.lt_succ_self m, h, ?_⟩
      rw [last_step_at, if_pos h]
    · have e : last_step_at s inp (m + 1) = last_step_at s inp m := by
        rw [last_step_at, if_neg h]
      rw [e]
      rcases ih with ih | ⟨k, hk, hadv, hl⟩
      · exact Or.inl ih
      · exact Or.inr ⟨k, Nat.lt_succ_of_lt hk, hadv, hl⟩

/-- On inputs whose clock values respect the delays (each call of `loop()`
starts no earlier than the previous one returns), a call that changes the
position starts at least `SERVO_STEP_DELAY` after `last_step_at` and after
every earlier call that changed the position. -/
theorem advance_spacing (inp : Nat → Tick) (m : Nat)
    (ht : ∀ k : Nat, k < m →
      (inp k).now + delayTotal (emitted setup.1 inp k) ≤ (inp (k + 1)).now)
    (hadv : (run setup.1 inp (m + 1)).currentServoPos ≠ (run setup.1 inp m).currentServoPos) :
    last_step_at setup.1 inp m + SERVO_STEP_DELAY ≤ (inp m).now ∧
    (∀ k : Nat, k < m →
      (run setup.1 inp (k + 1)).currentServoPos ≠ (run setup.1 inp k).currentServoPos →
      (inp k).now + SERVO_STEP_DELAY ≤ (inp m).now) := by
  have hprev : ∀ k : Nat, k < m →
      (run setup.1 inp (k + 1)).currentServoPos ≠ (run setup.1 inp k).currentServoPos →
      (inp k).now + SERVO_STEP_DELAY ≤ (inp m).now := by
    intro k hk hk_adv
    have h1 := (advance_blocks (run setup.1 inp k) (inp k) hk_adv).2.2
    have h2 := ht k hk
    have h3 := clock_mono setup.1 inp m ht (k + 1) m (by omega) (Nat.le_refl m)
    rw [emitted] at h2
    omega
  refine ⟨?_, hprev⟩
  rcases last_step_at_cases setup.1 inp m with h0 | ⟨k, hk, hk_adv, hl⟩
  · rw [h0]
    have hs := (advance_blocks (run setup.1 inp m) (inp m) hadv).1
    have h1 := clock_after_trigger inp m ht m (Nat.le_refl m) hs
    simp only [setup, SERVO_STEP_DELAY]
    omega
  · rw [hl]
    exact hprev k hk hk_adv

/-- The globals of a timed run are those of the run on the inputs it reads. -/
theorem timedRun_fst (calls : Nat → Call) (n : Nat) :
    (timedRun calls n).1 = run setup.1 (timedInputs calls) n := by
  induction n with
  | zero => rfl
  | succ n ih =>
    rw [timedRun, run, ← ih]
    rfl

/-- In a timed run each call of `loop()` starts no earlier than the previous
one returns. -/
theorem timedInputs_spaced (calls : Nat → Call) (k : Nat) :
    (timedInputs calls k).now + delayTotal (emitted setup.1 (timedInputs calls) k) ≤
      (timedInputs calls (k + 1)).now := by
  have e : (timedRun calls (k + 1)).2 = (timedRun calls k).2 + (calls k).gap + (calls k).sense
      + delayTotal (loop (timedRun calls k).1 (timedInputs calls k)).2 := rfl
  rw [emitted, ← timedRun_fst]
  simp only [timedInputs, e]
  omega

/-- C9: position steps are at least `SERVO_STEP_DELAY = 15` ms apart whatever
the cadence of the calls.  With the clock explicit (`millis()` reads it,
`delay` advances it) and for every choice of the gaps between calls, sensor
times and readings after `setup()`: a call of `loop()` that changes the
position has `now - last_step_at ≥ 15`, where `last_step_at` is the `now` of
the previous call that changed the position (0 before the first), and it
starts at least 15 ms after every earlier call that changed the position. -/
theorem step_rate_limited (calls : Nat → Call) (m : Nat)
    (hadv : (run setup.1 (timedInputs calls) (m + 1)).currentServoPos ≠
      (run setup.1 (timedInputs calls) m).currentServoPos) :
    last_step_at setup.1 (timedInputs calls) m + SERVO_STEP_DELAY ≤ (timedInputs calls m).now ∧
    (∀ k : Nat, k < m →
      (run setup.1 (timedInputs calls) (k + 1)).currentServoPos ≠
        (run setup.1 (timedInputs calls) k).currentServoPos →
      (timedInputs calls k).now + SERVO_STEP_DELAY ≤ (timedInputs calls m).now) :=
  advance_spacing (timedInputs calls) m (fun k _ => timedInputs_spaced calls k) hadv

/-- C9 on the timed run `backToBack`, where each call starts exactly when the
previous one returns: calls 1 and 2 start at 1320 and 1335 ms, both change the
position (140 to 137 to 134), and they are 15 ms apart. -/
theorem step_rate_limited_witness :
    (run setup.1 (timedInputs backToBack) 1).currentServoPos = 140 ∧
    (run setup.1 (timedInputs backToBack) 2).currentServoPos = 137 ∧
    (run setup.1 (timedInputs backToBack) 3).currentServoPos = 134 ∧
    last_step_at setup.1 (timedInputs backToBack) 2 = 1320 ∧
    (timedInputs backToBack 2).now = 1335 ∧
    last_step_at setup.1 (timedInputs backToBack) 2 + SERVO_STEP_DELAY ≤
      (timedInputs backToBack 2).now :=
  ⟨by decide, by decide, by decide, by decide, by decide,
   (step_rate_limited backToBack 2 (by decide)).1⟩

/-! ## Opening cue (C10) -/

/-- The tones issued by one call of `loop()`: the opening cue on the call that
leaves `CLOSED`, three warning beeps on a call in `OPEN`, none otherwise. -/
theorem tonesOf_loop (s : Ctl) (i : Tick) :
    tonesOf (loop s i).2 =
      if s.currentState = BinState.CLOSED ∧ (loop s i).1.currentState = BinState.OPENING then
        openingCue
      else if s.currentState = BinState.OPEN then [(700, 200), (700, 200), (700, 200)]
      else [] := by
  cases hs : s.currentState with
  | CLOSED =>
    by_cases hd : i.distance > 0 ∧ i.distance ≤ 35
    · rw [loop_closed_trigger s i hs hd]
      simp [smoothDimToBright, playOpeningTune_eq, tonesOf, openingCue]
    · rw [loop_closed_idle s i hs hd]
      simp [smoothDimToBright, tonesOf, hs]
  | OPENING =>
    by_cases hp : s.currentServoPos > OPEN_POS
    · rw [loop_opening_step s i hs hp]
      simp [tonesOf]
    · rw [loop_opening_done s i hs hp]
      simp [tonesOf]
  | OPEN =>
    rw [loop_open s i hs]
    simp [tonesOf_append, tonesOf_greenWarningWithBeep, tonesOf]
  | CLOSING =>
    by_cases hd : i.distance > 0 ∧ i.distance ≤ 20
    · rw [loop_closing_reopen s i hs hd]
      simp [tonesOf]
    · by_cases hp : s.currentServoPos < CLOSED_POS
      · rw [loop_closing_step s i hs hd hp]
        simp [tonesOf]
      · rw [loop_closing_done s i hs hd hp]
        simp [tonesOf_append, blinkAllLeds_eq, tonesOf]

/-- C10: the tones of a call of `loop()` are the opening cue (262, 330, 392,
523 Hz for 200, 200, 300, 400 ms, in this order, once) exactly when the call
takes the state from `CLOSED` to `OPENING`; every other call issues none of the
cue's tones, and the call that reopens from `CLOSING` issues no tone at all. -/
theorem opening_cue_exactly_on_trigger (s : Ctl) (i : Tick) :
    openingCue = [(262, 200), (330, 200), (392, 300), (523, 400)] ∧
    (tonesOf (loop s i).2 = openingCue ↔
      (s.currentState = BinState.CLOSED ∧ (loop s i).1.currentState = BinState.OPENING)) ∧
    (¬ (s.currentState = BinState.CLOSED ∧ (loop s i).1.currentState = BinState.OPENING) →
      ∀ t ∈ tonesOf (loop s i).2, t ∉ openingCue) ∧
    (s.currentState = BinState.CLOSING → (loop s i).1.currentState = BinState.OPENING →
      tonesOf (loop s i).2 = []) := by
  have ht := tonesOf_loop s i
  refine ⟨rfl, ?_, ?_, ?_⟩
  · constructor
    · intro h
      by_contra hn
      rw [if_neg hn] at ht
      rw [h] at ht
      split at ht <;> exact absurd ht (by decide)
    · intro h
      rw [ht, if_pos h]
  · intro hn t hmem
    rw [ht, if_neg hn] at hmem
    split at hmem
    · simp only [List.mem_cons, List.mem_singleton, List.not_mem_nil, or_false, or_self] at hmem
      rw [hmem]
      decide
    · exact absurd hmem (List.not_mem_nil t)
  · intro hc _
    rw [ht, if_neg (by rw [hc]; simp), if_neg (by rw [hc]; decide)]

/-- C10 at concrete inputs: the call that opens from the `setup()` state plays
the cue; the reopening call from `CLOSING` at position 77 plays nothing. -/
theorem opening_cue_exactly_on_trigger_witness :
    tonesOf (loop setup.1 ⟨0, 10, 0⟩).2 = [(262, 200), (330, 200), (392, 300), (523, 400)] ∧
    tonesOf (loop ⟨BinState.CLOSING, 77, 0, true⟩ ⟨300, 15, 0⟩).2 = [] :=
  ⟨((opening_cue_exactly_on_trigger setup.1 ⟨0, 10, 0⟩).2.1).2 ⟨rfl, by decide⟩,
   (opening_cue_exactly_on_trigger ⟨BinState.CLOSING, 77, 0, true⟩ ⟨300, 15, 0⟩).2.2.2 rfl
     (by decide)⟩

/-! ## Position update and state changes of one call (C11, C18) -/

/-- The position after one call of `loop()`, in closed form. -/
theorem loop_position (s : Ctl) (i : Tick) :
    (loop s i).1.currentServoPos =
      if s.currentState = BinState.OPENING ∧ s.currentServoPos > 0 then s.currentServoPos - 3
      else if s.currentState = BinState.CLOSING ∧ ¬ (i.distance > 0 ∧ i.distance ≤ 20) ∧
          s.currentServoPos < 140 then s.currentServoPos + 1
      else s.currentServoPos := by
  cases hs : s.currentState with
  | CLOSED =>
    by_cases hd : i.distance > 0 ∧ i.distance ≤ 35
    · rw [loop_closed_trigger s i hs hd]
      simp
    · rw [loop_closed_idle s i hs hd]
      simp
  | OPENING =>
    by_cases hp : s.currentServoPos > OPEN_POS
    · rw [loop_opening_step s i hs hp]
      simp only [OPEN_POS] at hp
      simp [hp, OPEN_SPEED]
    · rw [loop_opening_done s i hs hp]
      simp only [OPEN_POS] at hp
      simp [hp]
  | OPEN =>
    rw [loop_open s i hs]
    simp
  | CLOSING =>
    by_cases hd : i.distance > 0 ∧ i.distance ≤ 20
    · rw [loop_closing_reopen s i hs hd]
      simp [hd]
    · by_cases hp : s.currentServoPos < CLOSED_POS
      · rw [loop_closing_step s i hs hd hp]
        simp only [CLOSED_POS] at hp
        simp only [gt_iff_lt] at hd
        simp [hd, hp, CLOSE_SPEED]
      · rw [loop_closing_done s i hs hd hp]
        simp only [CLOSED_POS] at hp
        simp [hp]

/-- The state after one call of `loop()`, in closed form. -/
theorem loop_state (s : Ctl) (i : Tick) :
    (loop s i).1.currentState =
      match s.currentState with
      | BinState.CLOSED =>
        if i.distance > 0 ∧ i.distance ≤ 35 then BinState.OPENING else BinState.CLOSED
      | BinState.OPENING =>
        if s.currentServoPos > 0 then BinState.OPENING else BinState.OPEN
      | BinState.OPEN => BinState.CLOSING
      | BinState.CLOSING =>
        if i.distance > 0 ∧ i.distance ≤ 20 then BinState.OPENING
        else if s.currentServoPos < 140 then BinState.CLOSING else BinState.CLOSED := by
  cases hs : s.currentState with
  | CLOSED =>
    by_cases hd : i.distance > 0 ∧ i.distance ≤ 35
    · rw [loop_closed_trigger s i hs hd]
      simp only [hd, and_self, if_true]
    · rw [loop_closed_idle s i hs hd]
      simp only [hd, if_false, hs]
  | OPENING =>
    by_cases hp : s.currentServoPos > OPEN_POS
    · rw [loop_opening_step s i hs hp]
      simp only [OPEN_POS] at hp
      simp only [hp, if_true, hs]
    · rw [loop_opening_done s i hs hp]
      simp only [OPEN_POS] at hp
      simp only [hp, if_false]
  | OPEN =>
    rw [loop_open s i hs]
  | CLOSING =>
    by_cases hd : i.distance > 0 ∧ i.distance ≤ 20
    · rw [loop_closing_reopen s i hs hd]
      simp only [hd, and_self, if_true]
    · by_cases hp : s.currentServoPos < CLOSED_POS
      · rw [loop_closing_step s i hs hd hp]
        simp only [CLOSED_POS] at hp
        simp only [hd, hp, if_false, if_true, hs]
      · rw [loop_closing_done s i hs hd hp]
        simp only [CLOSED_POS] at hp
        simp only [hd, hp, if_false]

/-- C11: the position update of one call of `loop()`.  In `OPENING` with
position above 0 the position goes down by exactly `OPEN_SPEED = 3`; in
`CLOSING` with a reading outside `(0, 20]` and position below 140 it goes up by
exactly `CLOSE_SPEED = 1`; in every other case (`CLOSED`, `OPEN`, `OPENING` at
position at most 0, `CLOSING` with a reopen reading or at position 140 or more)
it is unchanged.  So a change happens only in `OPENING`, downwards from above
0, or in `CLOSING`, upwards and not beyond 140. -/
theorem position_update_characterised (s : Ctl) (i : Tick) :
    OPEN_SPEED = 3 ∧ CLOSE_SPEED = 1 ∧
    (s.currentState = BinState.OPENING → s.currentServoPos > 0 →
      (loop s i).1.currentServoPos = s.currentServoPos - OPEN_SPEED) ∧
    (s.currentState = BinState.CLOSING → ¬ (0 < i.distance ∧ i.distance ≤ 20) →
      s.currentServoPos < 140 →
      (loop s i).1.currentServoPos = s.currentServoPos + CLOSE_SPEED) ∧
    (s.currentState = BinState.CLOSED ∨ s.currentState = BinState.OPEN ∨
      (s.currentState = BinState.OPENING ∧ s.currentServoPos ≤ 0) ∨
      (s.currentState = BinState.CLOSING ∧
        ((0 < i.distance ∧ i.distance ≤ 20) ∨ s.currentServoPos ≥ 140)) →
      (loop s i).1.currentServoPos = s.currentServoPos) ∧
    ((loop s i).1.currentServoPos ≠ s.currentServoPos →
      (s.currentState = BinState.OPENING ∧ 0 < s.currentServoPos ∧
        (loop s i).1.currentServoPos < s.currentServoPos) ∨
      (s.currentState = BinState.CLOSING ∧ s.currentServoPos < (loop s i).1.currentServoPos ∧
        (loop s i).1.currentServoPos ≤ 140)) := by
  have hp := loop_position s i
  refine ⟨rfl, rfl, ?_, ?_, ?_, ?_⟩
  · intro hs h0
    rw [hp, if_pos ⟨hs, h0⟩]
    rfl
  · intro hs hd h140
    rw [hp, if_neg (by rw [hs]; simp), if_pos ⟨hs, hd, h140⟩]
    rfl
  · intro h
    rw [hp]
    rcases h with h | h | ⟨h, h0⟩ | ⟨h, h1⟩
    · rw [if_neg (by rw [h]; simp), if_neg (by rw [h]; simp)]
    · rw [if_neg (by rw [h]; simp), if_neg (by rw [h]; simp)]
    · rw [if_neg (by intro hc; omega), if_neg (by rw [h]; simp)]
    · rw [if_neg (by rw [h]; simp), if_neg]
      rintro ⟨-, hd, h140⟩
      rcases h1 with h1 | h1
      · exact hd h1
      · omega
  · intro hne
    rw [hp] at hne ⊢
    split at hne
    · rename_i h
      rw [if_pos h]
      exact Or.inl ⟨h.1, h.2, by omega⟩
    · rename_i h
      rw [if_neg h]
      split at hne
      · rename_i h2
        rw [if_pos h2]
        exact Or.inr ⟨h2.1, by omega, by omega⟩
      · exact absurd rfl hne

/-- C11 at concrete inputs: `OPENING` at 140 steps to 137 and at -1 stays;
`CLOSING` at 77 steps to 78 on a reading of 50 cm, stays on a reading of 15 cm,
and stays at 140; `CLOSED` and `OPEN` leave the position alone. -/
theorem position_update_characterised_witness :
    (loop justTriggered ⟨1320, 50, 0⟩).1.currentServoPos = 140 - 3 ∧
    (loop ⟨BinState.OPENING, -1, 0, true⟩ ⟨2025, 50, 0⟩).1.currentServoPos = -1 ∧
    (loop ⟨BinState.CLOSING, 77, 0, true⟩ ⟨300, 50, 0⟩).1.currentServoPos = 77 + 1 ∧
    (loop ⟨BinState.CLOSING, 77, 0, true⟩ ⟨300, 15, 0⟩).1.currentServoPos = 77 ∧
    (loop ⟨BinState.CLOSING, 140, 0, true⟩ ⟨300, 50, 0⟩).1.currentServoPos = 140 ∧
    (loop setup.1 ⟨0, 10, 0⟩).1.currentServoPos = 140 ∧
    (loop ⟨BinState.OPEN, -1, 0, true⟩ ⟨2025, 50, 0⟩).1.currentServoPos = -1 :=
  ⟨(position_update_characterised justTriggered ⟨1320, 50, 0⟩).2.2.1 rfl (by decide),
   (position_update_characterised ⟨BinState.OPENING, -1, 0, true⟩ ⟨2025, 50, 0⟩).2.2.2.2.1
     (Or.inr (Or.inr (Or.inl ⟨rfl, by decide⟩))),
   (position_update_characterised ⟨BinState.CLOSING, 77, 0, true⟩ ⟨300, 50, 0⟩).2.2.2.1 rfl
     (by decide) (by decide),
   (position_update_characterised ⟨BinState.CLOSING, 77, 0, true⟩ ⟨300, 15, 0⟩).2.2.2.2.1
     (Or.inr (Or.inr (Or.inr ⟨rfl, Or.inl (by decide)⟩))),
   (position_update_characterised ⟨BinState.CLOSING, 140, 0, true⟩ ⟨300, 50, 0⟩).2.2.2.2.1
     (Or.inr (Or.inr (Or.inr ⟨rfl, Or.inr (by decide)⟩))),
   (position_update_characterised setup.1 ⟨0, 10, 0⟩).2.2.2.2.1 (Or.inl rfl),
   (position_update_characterised ⟨BinState.OPEN, -1, 0, true⟩ ⟨2025, 50, 0⟩).2.2.2.2.1
     (Or.inr (Or.inl rfl))⟩

/-- C18: one call of `loop()` either keeps the state or takes one of the five
edges `CLOSED → OPENING`, `OPENING → OPEN`, `OPEN → CLOSING`,
`CLOSING → OPENING`, `CLOSING → CLOSED`; none of the six other changes occurs;
a call in `OPEN` always goes to `CLOSING`; and each of the five edges is taken
by some call. -/
theorem state_changes_are_the_five_edges :
    (∀ (s : Ctl) (i : Tick),
      ((loop s i).1.currentState = s.currentState ∨
        (s.currentState = BinState.CLOSED ∧ (loop s i).1.currentState = BinState.OPENING) ∨
        (s.currentState = BinState.OPENING ∧ (loop s i).1.currentState = BinState.OPEN) ∨
        (s.currentState = BinState.OPEN ∧ (loop s i).1.currentState = BinState.CLOSING) ∨
        (s.currentState = BinState.CLOSING ∧ (loop s i).1.currentState = BinState.OPENING) ∨
        (s.currentState = BinState.CLOSING ∧ (loop s i).1.currentState = BinState.CLOSED)) ∧
      ¬ (s.currentState = BinState.CLOSED ∧ (loop s i).1.currentState = BinState.OPEN) ∧
      ¬ (s.currentState = BinState.CLOSED ∧ (loop s i).1.currentState = BinState.CLOSING) ∧
      ¬ (s.currentState = BinState.OPENING ∧ (loop s i).1.currentState = BinState.CLOSING) ∧
      ¬ (s.currentState = BinState.OPENING ∧ (loop s i).1.currentState = BinState.CLOSED) ∧
      ¬ (s.currentState = BinState.OPEN ∧ (loop s i).1.currentState = BinState.OPENING) ∧
      ¬ (s.currentState = BinState.OPEN ∧ (loop s i).1.currentState = BinState.CLOSED) ∧
      (s.currentState = BinState.OPEN → (loop s i).1.currentState = BinState.CLOSING)) ∧
    (loop setup.1 ⟨0, 10, 0⟩).1.currentState = BinState.OPENING ∧
    (loop ⟨BinState.OPENING, -1, 0, true⟩ ⟨2025, 50, 0⟩).1.currentState = BinState.OPEN ∧
    (loop ⟨BinState.OPEN, -1, 0, true⟩ ⟨2025, 50, 0⟩).1.currentState = BinState.CLOSING ∧
    (loop ⟨BinState.CLOSING, 77, 0, true⟩ ⟨300, 15, 0⟩).1.currentState = BinState.OPENING ∧
    (loop ⟨BinState.CLOSING, 140, 0, true⟩ ⟨300, 50, 0⟩).1.currentState = BinState.CLOSED := by
  refine ⟨?_, by decide, by decide, by decide, by decide, by decide⟩
  intro s i
  have hst := loop_state s i
  cases hs : s.currentState <;> rw [hs] at hst <;> simp only at hst
  · by_cases hd : i.distance > 0 ∧ i.distance ≤ 35
    · rw [if_pos hd] at hst
      simp [hst]
    · rw [if_neg hd] at hst
      simp [hst]
  · by_cases hp : s.currentServoPos > 0
    · rw [if_pos hp] at hst
      simp [hst]
    · rw [if_neg hp] at hst
      simp [hst]
  · simp [hst]
  · by_cases hd : i.distance > 0 ∧ i.distance ≤ 20
    · rw [if_pos hd] at hst
      simp [hst]
    · rw [if_neg hd] at hst
      by_cases hp : s.currentServoPos < 140
      · rw [if_pos hp] at hst
        simp [hst]
      · rw [if_neg hp] at hst
        simp [hst]

/-! ## The warning sequence (C12) -/

theorem analogWrites_append (pin : Int) (xs ys : List Cmd) :
    analogWrites pin (xs ++ ys) = analogWrites pin xs ++ analogWrites pin ys := by
  induction xs with
  | nil => simp [analogWrites]
  | cons c cs ih =>
    cases c <;> simp only [List.cons_append, analogWrites] <;> try exact ih
    split
    · exact congrArg (List.cons _) ih
    · exact ih

theorem mem_analogWrites (pin v : Int) (cs : List Cmd) (h : v ∈ analogWrites pin cs) :
    Cmd.analogWrite pin v ∈ cs := by
  induction cs with
  | nil => simp [analogWrites] at h
  | cons c cs ih =>
    cases c <;> simp only [analogWrites] at h <;>
      try exact List.mem_cons_of_mem _ (ih h)
    rename_i q w
    by_cases hq : q = pin
    · rw [if_pos hq] at h
      rcases List.mem_cons.mp h with h1 | h1
      · rw [h1, hq]
        exact List.mem_cons_self _ _
      · exact List.mem_cons_of_mem _ (ih h1)
    · rw [if_neg hq] at h
      exact List.mem_cons_of_mem _ (ih h)

theorem analogWrites_rampUp :
    analogWrites greenLed (rampUp 0) = [0, 25, 50, 75, 100, 125, 150, 175, 200, 225, 250] := by
  rw [rampUp_eq]
  decide

theorem analogWrites_rampDown :
    analogWrites greenLed (rampDown 255) =
      [255, 230, 205, 180, 155, 130, 105, 80, 55, 30, 5] := by
  rw [rampDown_eq]
  decide

/-- C12 (fails on the code): the claim says that in every repetition the last
value written by the up-ramp is 255 and the last value written by the down-ramp
is 0.  The up-ramp `for (j = 0; j < 255; j += 25)` writes 250 last, and the
down-ramp `for (j = 255; j >= 0; j -= 25)` writes 5 last. -/
theorem warning_ramps_end_at_250_and_5 :
    (analogWrites greenLed (rampUp 0)).getLast? = some 250 ∧
    (analogWrites greenLed (rampUp 0)).getLast? ≠ some 255 ∧
    (255 : Int) ∉ analogWrites greenLed (rampUp 0) ∧
    (analogWrites greenLed (rampDown 255)).getLast? = some 5 ∧
    (analogWrites greenLed (rampDown 255)).getLast? ≠ some 0 ∧
    (0 : Int) ∉ analogWrites greenLed (rampDown 255) := by
  rw [analogWrites_rampUp, analogWrites_rampDown]
  decide

/-- C12 as amended: the warning sequence is exactly three repetitions, followed
by `noTone` and a `LOW` on the indicator.  Each repetition is an up-ramp that
writes 0, 25, ..., 250 (steps of 25, last value 250), then a 700 Hz tone of
200 ms, then a down-ramp that writes 255, 230, ..., 5 (steps of 25 from the
maximum, last value 5), then a pause. -/
theorem warning_sequence_shape :
    greenWarningWithBeep = warningRound ++ warningRound ++ warningRound ++
      [Cmd.noTone buzzer, Cmd.digitalWrite greenLed false] ∧
    warningRound = rampUp 0 ++ [Cmd.tone buzzer 700 200, Cmd.delay 200] ++ rampDown 255 ++
      [Cmd.delay 150] ∧
    analogWrites greenLed (rampUp 0) = [0, 25, 50, 75, 100, 125, 150, 175, 200, 225, 250] ∧
    analogWrites greenLed (rampDown 255) =
      [255, 230, 205, 180, 155, 130, 105, 80, 55, 30, 5] ∧
    (analogWrites greenLed (rampUp 0)).getLast? = some 250 ∧
    (analogWrites greenLed (rampDown 255)).getLast? = some 5 ∧
    tonesOf warningRound = [(700, 200)] ∧
    analogWrites greenLed greenWarningWithBeep =
      [0, 25, 50, 75, 100, 125, 150, 175, 200, 225, 250,
       255, 230, 205, 180, 155, 130, 105, 80, 55, 30, 5,
       0, 25, 50, 75, 100, 125, 150, 175, 200, 225, 250,
       255, 230, 205, 180, 155, 130, 105, 80, 55, 30, 5,
       0, 25, 50, 75, 100, 125, 150, 175, 200, 225, 250,
       255, 230, 205, 180, 155, 130, 105, 80, 55, 30, 5] := by
  have hround : analogWrites greenLed warningRound =
      [0, 25, 50, 75, 100, 125, 150, 175, 200, 225, 250,
       255, 230, 205, 180, 155, 130, 105, 80, 55, 30, 5] := by
    simp only [warningRound, analogWrites_append, analogWrites_rampUp, analogWrites_rampDown]
    decide
  refine ⟨?_, rfl, analogWrites_rampUp, analogWrites_rampDown, ?_, ?_,
    tonesOf_warningRound, ?_⟩
  · rw [greenWarningWithBeep, warningRounds_eq]
    simp only [List.append_assoc]
  · rw [analogWrites_rampUp]
    decide
  · rw [analogWrites_rampDown]
    decide
  · rw [greenWarningWithBeep, warningRounds_eq]
    simp only [analogWrites_append, hround]
    decide

/-! ## Idle brightness (C13, C14) -/

/-- In the first half of the cycle the brightness is `⌊255 t / 1000⌋`. -/
theorem dimBrightness_rising (t : Nat) (h : t % 2000 ≤ 1000) :
    dimBrightness 2000 t = ((t % 2000 : Nat) : Int) * 255 / 1000 := by
  have hn : ¬ (t % 2000 > 2000 / 2) := by omega
  simp only [dimBrightness, if_neg hn, map]
  norm_num
  exact Int.tdiv_eq_ediv (by omega) (by norm_num)

/-- In the second half of the cycle the brightness is
`255 - ⌊255 (t - 1000) / 1000⌋`: the division of C truncates towards zero. -/
theorem dimBrightness_falling (t : Nat) (h : 1000 < t % 2000) :
    dimBrightness 2000 t = 255 - (((t % 2000 : Nat) : Int) - 1000) * 255 / 1000 := by
  have hp : t % 2000 > 2000 / 2 := by omega
  simp only [dimBrightness, if_pos hp, map]
  have e : (((t % 2000 : Nat) : Int) - ((2000 / 2 : Nat) : Int)) * (0 - 255) =
      -((((t % 2000 : Nat) : Int) - 1000) * 255) := by
    norm_num
  have e2 : (((2000 : Nat) : Int) - ((2000 / 2 : Nat) : Int)) = 1000 := by norm_num
  rw [e, e2, Int.neg_tdiv, Int.tdiv_eq_ediv (by omega) (by norm_num)]
  omega

/-- The only `analogWrite` on the red indicator in a call of `loop()` in
`CLOSED` is the idle brightness at the clock value read by
`smoothDimToBright`. -/
theorem analogWrites_closed (s : Ctl) (i : Tick) (hs : s.currentState = BinState.CLOSED) :
    analogWrites redLed (loop s i).2 = [dimBrightness 2000 i.dimMillis] := by
  by_cases hd : i.distance > 0 ∧ i.distance ≤ 35
  · rw [loop_closed_trigger s i hs hd]
    simp [smoothDimToBright, playOpeningTune_eq, analogWrites]
  · rw [loop_closed_idle s i hs hd]
    simp [smoothDimToBright, analogWrites]

/-- The brightness as a function of the phase: its value at 0 and 1000, and
its monotonicity on the two halves of the cycle. -/
theorem dimBrightness_shape :
    (∀ now : Nat, dimBrightness 2000 now = dimBrightness 2000 (now % 2000)) ∧
    dimBrightness 2000 0 = 0 ∧
    dimBrightness 2000 1000 = 255 ∧
    (∀ t1 t2 : Nat, t1 ≤ t2 → t2 ≤ 1000 → dimBrightness 2000 t1 ≤ dimBrightness 2000 t2) ∧
    (∀ t1 t2 : Nat, 1000 ≤ t1 → t1 ≤ t2 → t2 ≤ 1999 →
      dimBrightness 2000 t2 ≤ dimBrightness 2000 t1) := by
  refine ⟨?_, by decide, by decide, ?_, ?_⟩
  · intro now
    simp only [dimBrightness, Nat.mod_mod]
  · intro t1 t2 h12 h2
    rw [dimBrightness_rising t1 (by omega), dimBrightness_rising t2 (by omega)]
    omega
  · intro t1 t2 h1 h12 h2
    rcases Nat.eq_or_lt_of_le h1 with h1000 | hgt
    · subst h1000
      rcases Nat.eq_or_lt_of_le h12 with h1000 | hgt2
      · subst h1000
        exact Int.le_refl _
      · rw [dimBrightness_rising 1000 (by omega), dimBrightness_falling t2 (by omega)]
        omega
    · rw [dimBrightness_falling t1 (by omega), dimBrightness_falling t2 (by omega)]
      omega

/-- C13: the idle brightness that the code writes.  `smoothDimToBright(ledPin,
2000)` issues exactly one `analogWrite` on `ledPin`, and a call of `loop()` in
`CLOSED` issues exactly that one on the red indicator.  The value written
depends on the clock only through the phase `t = now mod 2000`; with the
truncating integer arithmetic of `map` it is 0 at `t = 0`, 255 at `t = 1000`,
non-decreasing in `t` on `[0, 1000]` and non-increasing on `[1000, 1999]`. -/
theorem idle_brightness_triangular :
    (∀ (ledPin : Int) (now : Nat),
      smoothDimToBright ledPin 2000 now = smoothDimToBright ledPin 2000 (now % 2000)) ∧
    (∀ ledPin : Int, smoothDimToBright ledPin 2000 0 = [Cmd.analogWrite ledPin 0]) ∧
    (∀ ledPin : Int, smoothDimToBright ledPin 2000 1000 = [Cmd.analogWrite ledPin 255]) ∧
    (∀ (ledPin : Int) (t1 t2 : Nat), t1 ≤ t2 → t2 ≤ 1000 →
      ∃ v1 v2 : Int, smoothDimToBright ledPin 2000 t1 = [Cmd.analogWrite ledPin v1] ∧
        smoothDimToBright ledPin 2000 t2 = [Cmd.analogWrite ledPin v2] ∧ v1 ≤ v2) ∧
    (∀ (ledPin : Int) (t1 t2 : Nat), 1000 ≤ t1 → t1 ≤ t2 → t2 ≤ 1999 →
      ∃ v1 v2 : Int, smoothDimToBright ledPin 2000 t1 = [Cmd.analogWrite ledPin v1] ∧
        smoothDimToBright ledPin 2000 t2 = [Cmd.analogWrite ledPin v2] ∧ v2 ≤ v1) ∧
    (∀ (s : Ctl) (i : Tick), s.currentState = BinState.CLOSED →
      ∃ v : Int, smoothDimToBright redLed 2000 i.dimMillis = [Cmd.analogWrite redLed v] ∧
        Cmd.analogWrite redLed v ∈ (loop s i).2 ∧
        analogWrites redLed (loop s i).2 = [v] ∧
        analogWrites redLed (loop s i).2 =
          analogWrites redLed (loop s ⟨i.now, i.distance, i.dimMillis % 2000⟩).2) ∧
    (∀ (s : Ctl) (now : Nat) (d : Int), s.currentState = BinState.CLOSED →
      analogWrites redLed (loop s ⟨now, d, 0⟩).2 = [0] ∧
      analogWrites redLed (loop s ⟨now, d, 1000⟩).2 = [255]) ∧
    (∀ (s : Ctl) (n1 n2 : Nat) (d1 d2 : Int) (t1 t2 : Nat),
      s.currentState = BinState.CLOSED → t1 ≤ t2 → t2 ≤ 1000 →
      ∃ v1 v2 : Int, analogWrites redLed (loop s ⟨n1, d1, t1⟩).2 = [v1] ∧
        analogWrites redLed (loop s ⟨n2, d2, t2⟩).2 = [v2] ∧ v1 ≤ v2) ∧
    (∀ (s : Ctl) (n1 n2 : Nat) (d1 d2 : Int) (t1 t2 : Nat),
      s.currentState = BinState.CLOSED → 1000 ≤ t1 → t1 ≤ t2 → t2 ≤ 1999 →
      ∃ v1 v2 : Int, analogWrites redLed (loop s ⟨n1, d1, t1⟩).2 = [v1] ∧
        analogWrites redLed (loop s ⟨n2, d2, t2⟩).2 = [v2] ∧ v2 ≤ v1) := by
  obtain ⟨hmod, h0, h1000, hup, hdown⟩ := dimBrightness_shape
  refine ⟨?_, ?_, ?_, ?_, ?_, ?_, ?_, ?_, ?_⟩
  · intro ledPin now
    simp only [smoothDimToBright]
    rw [← hmod now]
  · intro ledPin
    simp only [smoothDimToBright, h0]
  · intro ledPin
    simp only [smoothDimToBright, h1000]
  · intro ledPin t1 t2 h12 h2
    exact ⟨dimBrightness 2000 t1, dimBrightness 2000 t2, rfl, rfl, hup t1 t2 h12 h2⟩
  · intro ledPin t1 t2 h1 h12 h2
    exact ⟨dimBrightness 2000 t1, dimBrightness 2000 t2, rfl, rfl, hdown t1 t2 h1 h12 h2⟩
  · intro s i hs
    refine ⟨dimBrightness 2000 i.dimMillis, rfl, ?_, analogWrites_closed s i hs, ?_⟩
    · by_cases hd : i.distance > 0 ∧ i.distance ≤ 35
      · rw [loop_closed_trigger s i hs hd]
        simp [smoothDimToBright]
      · rw [loop_closed_idle s i hs hd]
        simp [smoothDimToBright]
    · rw [analogWrites_closed s i hs, analogWrites_closed s _ hs]
      simp only
      rw [← hmod i.dimMillis]
  · intro s now d hs
    rw [analogWrites_closed s _ hs, analogWrites_closed s _ hs]
    simp only [h0, h1000, and_self]
  · intro s n1 n2 d1 d2 t1 t2 hs h12 h2
    exact ⟨dimBrightness 2000 t1, dimBrightness 2000 t2, analogWrites_closed s _ hs,
      analogWrites_closed s _ hs, hup t1 t2 h12 h2⟩
  · intro s n1 n2 d1 d2 t1 t2 hs h1 h12 h2
    exact ⟨dimBrightness 2000 t1, dimBrightness 2000 t2, analogWrites_closed s _ hs,
      analogWrites_closed s _ hs, hdown t1 t2 h1 h12 h2⟩

/-- C13 at concrete inputs, on calls of `loop()` from the `setup()` state: the
red indicator gets 0 at clock value 0 and 255 at 1000; the values written at
250 and 500 rise, those at 1500 and 1999 fall; and the value written at 2500 is
the one written at 500. -/
theorem idle_brightness_triangular_witness :
    analogWrites redLed (loop setup.1 ⟨0, 50, 0⟩).2 = [0] ∧
    analogWrites redLed (loop setup.1 ⟨1000, 50, 1000⟩).2 = [255] ∧
    (∃ v1 v2 : Int, analogWrites redLed (loop setup.1 ⟨250, 50, 250⟩).2 = [v1] ∧
      analogWrites redLed (loop setup.1 ⟨500, 50, 500⟩).2 = [v2] ∧ v1 ≤ v2) ∧
    (∃ v1 v2 : Int, analogWrites redLed (loop setup.1 ⟨1500, 50, 1500⟩).2 = [v1] ∧
      analogWrites redLed (loop setup.1 ⟨1999, 50, 1999⟩).2 = [v2] ∧ v2 ≤ v1) ∧
    smoothDimToBright redLed 2000 2500 = smoothDimToBright redLed 2000 (2500 % 2000) ∧
    analogWrites redLed (loop setup.1 ⟨500, 50, 500⟩).2 = [127] ∧
    analogWrites redLed (loop setup.1 ⟨2500, 50, 2500⟩).2 = [127] ∧
    analogWrites redLed (loop setup.1 ⟨1500, 50, 1500⟩).2 = [128] ∧
    analogWrites redLed (loop setup.1 ⟨1999, 50, 1999⟩).2 = [1] :=
  have h := idle_brightness_triangular
  ⟨(h.2.2.2.2.2.2.1 setup.1 0 50 rfl).1,
   (h.2.2.2.2.2.2.1 setup.1 1000 50 rfl).2,
   h.2.2.2.2.2.2.2.1 setup.1 250 500 50 50 250 500 rfl (by decide) (by decide),
   h.2.2.2.2.2.2.2.2 setup.1 1500 1999 50 50 1500 1999 rfl (by decide) (by decide) (by decide),
   h.1 redLed 2500, by decide, by decide, by decide, by decide⟩

/-- C14: every brightness passed to `analogWrite` is in `[0, 255]`: the idle
brightness computed by `smoothDimToBright(redLed, 2000)` at every clock value,
every value written by the warning ramps, and so every `analogWrite` of every
call of `loop()`. -/
theorem brightness_in_range :
    (∀ t : Nat, 0 ≤ dimBrightness 2000 t ∧ dimBrightness 2000 t ≤ 255) ∧
    (∀ v : Int, v ∈ analogWrites greenLed greenWarningWithBeep → 0 ≤ v ∧ v ≤ 255) ∧
    (∀ (s : Ctl) (i : Tick) (pin v : Int),
      Cmd.analogWrite pin v ∈ (loop s i).2 → 0 ≤ v ∧ v ≤ 255) := by
  have hdim : ∀ t : Nat, 0 ≤ dimBrightness 2000 t ∧ dimBrightness 2000 t ≤ 255 := by
    intro t
    by_cases h : t % 2000 ≤ 1000
    · rw [dimBrightness_rising t h]
      omega
    · rw [dimBrightness_falling t (by omega)]
      omega
  have hwarn : ∀ pin v : Int, Cmd.analogWrite pin v ∈ greenWarningWithBeep →
      0 ≤ v ∧ v ≤ 255 := by
    intro pin v h
    simp only [greenWarningWithBeep, warningRounds_eq, warningRound, rampUp_eq, rampDown_eq,
      List.mem_append, List.mem_cons, List.mem_singleton, List.not_mem_nil, or_false,
      Cmd.analogWrite.injEq, reduceCtorEq, false_or, or_false] at h
    omega
  refine ⟨hdim, fun v h => hwarn greenLed v (mem_analogWrites greenLed v _ h), ?_⟩
  intro s i pin v h
  cases hs : s.currentState with
  | CLOSED =>
    by_cases hd : i.distance > 0 ∧ i.distance ≤ 35
    · rw [loop_closed_trigger s i hs hd] at h
      simp only [smoothDimToBright, playOpeningTune_eq, List.mem_append, List.mem_cons,
        List.mem_singleton, List.not_mem_nil, or_false, Cmd.analogWrite.injEq, reduceCtorEq,
        false_or, or_false] at h
      rw [h.2]
      exact hdim _
    · rw [loop_closed_idle s i hs hd] at h
      simp only [smoothDimToBright, List.mem_append, List.mem_cons,
        List.mem_singleton, List.not_mem_nil, or_false, Cmd.analogWrite.injEq, reduceCtorEq,
        false_or, or_false] at h
      rw [h.2]
      exact hdim _
  | OPENING =>
    by_cases hp : s.currentServoPos > OPEN_POS
    · rw [loop_opening_step s i hs hp] at h
      simp at h
    · rw [loop_opening_done s i hs hp] at h
      simp at h
  | OPEN =>
    rw [loop_open s i hs] at h
    rcases List.mem_append.mp h with h1 | h1
    · simp at h1
    · exact hwarn pin v h1
  | CLOSING =>
    by_cases hd : i.distance > 0 ∧ i.distance ≤ 20
    · rw [loop_closing_reopen s i hs hd] at h
      simp at h
    · by_cases hp : s.currentServoPos < CLOSED_POS
      · rw [loop_closing_step s i hs hd hp] at h
        simp at h
      · rw [loop_closing_done s i hs hd hp, blinkAllLeds_eq] at h
        simp at h

/-- C14 at concrete inputs: the idle brightness written by a call in `CLOSED`
at clock value 1999, and the value 250 written by the warning of a call in
`OPEN`. -/
theorem brightness_in_range_witness :
    (0 ≤ dimBrightness 2000 1999 ∧ dimBrightness 2000 1999 ≤ 255) ∧
    Cmd.analogWrite redLed 1 ∈ (loop setup.1 ⟨1999, 50, 1999⟩).2 ∧
    ((0 : Int) ≤ 250 ∧ (250 : Int) ≤ 255) :=
  have hmem : Cmd.analogWrite greenLed 250 ∈ (loop ⟨BinState.OPEN, -1, 0, true⟩ ⟨2025, 50, 0⟩).2 := by
    rw [loop_open _ _ rfl]
    simp [greenWarningWithBeep, warningRounds_eq, warningRound, rampUp_eq]
  ⟨brightness_in_range.1 1999, by decide,
   brightness_in_range.2.2 ⟨BinState.OPEN, -1, 0, true⟩ ⟨2025, 50, 0⟩ greenLed 250 hmem⟩

/-! ## Blink patterns (C15, C16) -/

/-- The writes to the green indicator of a call of `loop()` in `OPENING`: the
blink value of lines 71-75 and, on the call that sets `OPEN`, a final `HIGH`. -/
theorem greenWrites_opening (s : Ctl) (i : Tick) (hs : s.currentState = BinState.OPENING) :
    digitalWrites greenLed (loop s i).2 =
      decide ((i.now / 100) % 2 = 0) :: (if s.currentServoPos > 0 then [] else [true]) := by
  by_cases hp : s.currentServoPos > OPEN_POS
  · rw [loop_opening_step s i hs hp]
    simp only [OPEN_POS] at hp
    simp [digitalWrites, greenLed, redLed, blueLed, hp]
  · rw [loop_opening_done s i hs hp]
    simp only [OPEN_POS] at hp
    simp [digitalWrites, greenLed, redLed, blueLed, hp]

/-- The writes to the red indicator of a call of `loop()` in `CLOSING`: the
blink value of lines 93-97 and, on the call that sets `CLOSED`, the writes of
the closing blink and the final `LOW`. -/
theorem redWrites_closing (s : Ctl) (i : Tick) (hs : s.currentState = BinState.CLOSING) :
    digitalWrites redLed (loop s i).2 =
      decide ((i.now / 300) % 2 = 0) ::
        (if (i.distance > 0 ∧ i.distance ≤ 20) ∨ s.currentServoPos < 140 then []
         else [true, false, true, false, false]) := by
  by_cases hd : i.distance > 0 ∧ i.distance ≤ 20
  · rw [loop_closing_reopen s i hs hd]
    simp [digitalWrites, greenLed, redLed, hd]
  · by_cases hp : s.currentServoPos < CLOSED_POS
    · rw [loop_closing_step s i hs hd hp]
      simp only [CLOSED_POS] at hp
      simp [digitalWrites, greenLed, redLed, hp]
    · rw [loop_closing_done s i hs hd hp, blinkAllLeds_eq]
      simp only [CLOSED_POS] at hp
      simp only [gt_iff_lt] at hd
      simp [digitalWrites, greenLed, redLed, blueLed, hp, hd]

/-- The blink test `(now / h) % 2 == 0` flips after `h` and repeats after `2 h`. -/
theorem blink_test_shift (h t : Nat) (hh : 0 < h) :
    decide (((t + h) / h) % 2 = 0) = !decide ((t / h) % 2 = 0) ∧
    decide (((t + 2 * h) / h) % 2 = 0) = decide ((t / h) % 2 = 0) := by
  have e1 : (t + h) / h = t / h + 1 := Nat.add_div_right t hh
  have e2 : (t + 2 * h) / h = t / h + 2 := by
    rw [Nat.mul_comm, Nat.add_mul_div_left t 2 hh]
  rw [e1, e2]
  by_cases hpar : (t / h) % 2 = 0
  · have h1 : (t / h + 1) % 2 ≠ 0 := by omega
    have h2 : (t / h + 2) % 2 = 0 := by omega
    simp [hpar, h1, h2]
  · have h1 : (t / h + 1) % 2 = 0 := by omega
    have h2 : (t / h + 2) % 2 ≠ 0 := by omega
    simp [hpar, h1, h2]

/-- C15 (fails on the code): the claim says the blink value depends only on
the state and the time since the state was entered.  The runs `backToBack` and
`lateStart` both enter `OPENING` with their first call, which returns at clock
value 1320 in one and 1420 in the other; the next call, made at once (elapsed
time 0), writes `LOW` to the green indicator in the first run and `HIGH` in the
second.  In `CLOSING` at the same position, calls at clock values 8735 and 9035
write `LOW` and `HIGH` to the red indicator. -/
theorem blink_depends_on_absolute_clock :
    timedRun backToBack 1 = (justTriggered, 1320) ∧
    timedRun lateStart 1 = (justTriggered, 1420) ∧
    digitalWrites greenLed (timedStep (timedRun backToBack 1) (backToBack 1)).2 = [false] ∧
    digitalWrites greenLed (timedStep (timedRun lateStart 1) (lateStart 1)).2 = [true] ∧
    digitalWrites redLed (loop justWarned ⟨8735 + 0, 50, 0⟩).2 = [false] ∧
    digitalWrites redLed (loop justWarned ⟨9035 + 0, 50, 0⟩).2 = [true] ∧
    ¬ (∀ (s : Ctl) (t0 t0' e : Nat) (d : Int) (m : Nat),
        s.currentState = BinState.OPENING →
        digitalWrites greenLed (loop s ⟨t0 + e, d, m⟩).2 =
          digitalWrites greenLed (loop s ⟨t0' + e, d, m⟩).2) ∧
    ¬ (∀ (s : Ctl) (t0 t0' e : Nat) (d : Int) (m : Nat),
        s.currentState = BinState.CLOSING →
        digitalWrites redLed (loop s ⟨t0 + e, d, m⟩).2 =
          digitalWrites redLed (loop s ⟨t0' + e, d, m⟩).2) := by
  refine ⟨by decide, by decide, by decide, by decide, by decide, by decide, ?_, ?_⟩
  · intro h
    exact absurd (h justTriggered 1320 1420 0 50 0 rfl) (by decide)
  · intro h
    exact absurd (h justWarned 8735 9035 0 50 0 rfl) (by decide)

/-- C15 as amended: the blink value is a function of the state and the
absolute clock value `now`.  Two calls of `loop()` in `OPENING` whose state
entry times `t0`, `t0'` agree modulo the blink period of 200 ms, taken the same
time `e` after entry, give the same result, in particular the same writes to
the green indicator; likewise in `CLOSING` modulo 600 ms for the red
indicator. -/
theorem blink_same_for_congruent_entry (s : Ctl) (t0 t0' e : Nat) (d : Int) (m : Nat) :
    (s.currentState = BinState.OPENING → t0 % 200 = t0' % 200 →
      loop s ⟨t0 + e, d, m⟩ = loop s ⟨t0' + e, d, m⟩ ∧
      digitalWrites greenLed (loop s ⟨t0 + e, d, m⟩).2 =
        digitalWrites greenLed (loop s ⟨t0' + e, d, m⟩).2) ∧
    (s.currentState = BinState.CLOSING → t0 % 600 = t0' % 600 →
      loop s ⟨t0 + e, d, m⟩ = loop s ⟨t0' + e, d, m⟩ ∧
      digitalWrites redLed (loop s ⟨t0 + e, d, m⟩).2 =
        digitalWrites redLed (loop s ⟨t0' + e, d, m⟩).2) := by
  constructor
  · intro hs ht
    have hb : ((t0 + e) / 100) % 2 = ((t0' + e) / 100) % 2 := by omega
    have hl : loop s ⟨t0 + e, d, m⟩ = loop s ⟨t0' + e, d, m⟩ := by
      simp only [loop, hs, hb]
    exact ⟨hl, by rw [hl]⟩
  · intro hs ht
    have hb : ((t0 + e) / 300) % 2 = ((t0' + e) / 300) % 2 := by omega
    have hl : loop s ⟨t0 + e, d, m⟩ = loop s ⟨t0' + e, d, m⟩ := by
      simp only [loop, hs, hb]
    exact ⟨hl, by rw [hl]⟩

/-- C15 as amended, at concrete inputs: entries at 1320 and 1520 ms into
`OPENING`, and at 8735 and 9335 ms into `CLOSING`, 40 ms after entry. -/
theorem blink_same_for_congruent_entry_witness :
    digitalWrites greenLed (loop justTriggered ⟨1320 + 40, 50, 0⟩).2 =
      digitalWrites greenLed (loop justTriggered ⟨1520 + 40, 50, 0⟩).2 ∧
    digitalWrites redLed (loop justWarned ⟨8735 + 40, 50, 0⟩).2 =
      digitalWrites redLed (loop justWarned ⟨9335 + 40, 50, 0⟩).2 :=
  ⟨((blink_same_for_congruent_entry justTriggered 1320 1520 40 50 0).1 rfl (by decide)).2,
   ((blink_same_for_congruent_entry justWarned 8735 9335 40 50 0).2 rfl (by decide)).2⟩

/-- C16: the blink value written by a call of `loop()` at clock value `t` is
`HIGH` exactly when `⌊t / h⌋` is even, with `h = 100` for the green indicator in
`OPENING` and `h = 300` for the red indicator in `CLOSING`; it is the first
write to that indicator, and the only one on a call that does not leave the
state.  So the value at `t + h` is the negation of the value at `t`, and the
value at `t + 2 h` is the value at `t`. -/
theorem blink_toggles_at_half_period (s : Ctl) (t : Nat) (d : Int) (m : Nat) :
    (s.currentState = BinState.OPENING →
      (digitalWrites greenLed (loop s ⟨t, d, m⟩).2).head? = some (decide ((t / 100) % 2 = 0)) ∧
      (0 < s.currentServoPos →
        digitalWrites greenLed (loop s ⟨t, d, m⟩).2 = [decide ((t / 100) % 2 = 0)]) ∧
      (digitalWrites greenLed (loop s ⟨t + 100, d, m⟩).2).head? =
        (digitalWrites greenLed (loop s ⟨t, d, m⟩).2).head?.map not ∧
      (digitalWrites greenLed (loop s ⟨t + 2 * 100, d, m⟩).2).head? =
        (digitalWrites greenLed (loop s ⟨t, d, m⟩).2).head?) ∧
    (s.currentState = BinState.CLOSING →
      (digitalWrites redLed (loop s ⟨t, d, m⟩).2).head? = some (decide ((t / 300) % 2 = 0)) ∧
      ((0 < d ∧ d ≤ 20) ∨ s.currentServoPos < 140 →
        digitalWrites redLed (loop s ⟨t, d, m⟩).2 = [decide ((t / 300) % 2 = 0)]) ∧
      (digitalWrites redLed (loop s ⟨t + 300, d, m⟩).2).head? =
        (digitalWrites redLed (loop s ⟨t, d, m⟩).2).head?.map not ∧
      (digitalWrites redLed (loop s ⟨t + 2 * 300, d, m⟩).2).head? =
        (digitalWrites redLed (loop s ⟨t, d, m⟩).2).head?) := by
  constructor
  · intro hs
    have hsh := blink_test_shift 100 t (by decide)
    rw [greenWrites_opening s _ hs, greenWrites_opening s _ hs, greenWrites_opening s _ hs]
    refine ⟨rfl, ?_, ?_, ?_⟩
    · intro hp
      simp only [hp, if_true]
    · simp only [List.head?_cons, Option.map_some']
      rw [hsh.1]
    · simp only [List.head?_cons]
      rw [hsh.2]
  · intro hs
    have hsh := blink_test_shift 300 t (by decide)
    rw [redWrites_closing s _ hs, redWrites_closing s _ hs, redWrites_closing s _ hs]
    refine ⟨rfl, ?_, ?_, ?_⟩
    · intro hp
      simp only [gt_iff_lt, hp, if_true]
    · simp only [List.head?_cons, Option.map_some']
      rw [hsh.1]
    · simp only [List.head?_cons]
      rw [hsh.2]

/-- C16 at concrete inputs: `OPENING` at 140 at clock values 1320, 1420 and
1520, and `CLOSING` at -1 at clock value 8735. -/
theorem blink_toggles_at_half_period_witness :
    digitalWrites greenLed (loop justTriggered ⟨1320, 50, 0⟩).2 = [false] ∧
    (digitalWrites greenLed (loop justTriggered ⟨1320 + 100, 50, 0⟩).2).head? =
      (digitalWrites greenLed (loop justTriggered ⟨1320, 50, 0⟩).2).head?.map not ∧
    (digitalWrites greenLed (loop justTriggered ⟨1320 + 2 * 100, 50, 0⟩).2).head? =
      (digitalWrites greenLed (loop justTriggered ⟨1320, 50, 0⟩).2).head? ∧
    digitalWrites redLed (loop justWarned ⟨8735, 50, 0⟩).2 = [false] :=
  have h := (blink_toggles_at_half_period justTriggered 1320 50 0).1 rfl
  have h2 := (blink_toggles_at_half_period justWarned 8735 50 0).2 rfl
  ⟨h.2.1 (by decide), h.2.2.1, h.2.2.2, h2.2.1 (Or.inr (by decide))⟩

/-! ## Reachable positions (C17, C19) -/

theorem exec_lastServoStepTime (s : Ctl) (ticks : List Tick) :
    (exec s ticks).lastServoStepTime = s.lastServoStepTime := by
  induction ticks generalizing s with
  | nil => rfl
  | cons i ticks ih => rw [exec, ih, lastServoStepTime_unchanged]

/-- C17: in every state reachable from the `setup()` state the position is in
`[-2, 140]`, and both bounds are attained.  The run `minusTwoTicks` closes from
-1 up to position 1, reopens there on a reading of 15 cm, and the next opening
step writes -2; in general an opening run that starts at a positive position
congruent to 1 modulo 3 passes through -2. -/
theorem position_range_minus_two_to_140 :
    (∀ ticks : List Tick, -2 ≤ (exec setup.1 ticks).currentServoPos ∧
      (exec setup.1 ticks).currentServoPos ≤ 140) ∧
    (exec setup.1 []).currentServoPos = 140 ∧
    (exec setup.1 minusTwoTicks.dropLast.dropLast).currentState = BinState.CLOSING ∧
    (exec setup.1 minusTwoTicks.dropLast.dropLast).currentServoPos = 1 ∧
    (exec setup.1 minusTwoTicks.dropLast).currentState = BinState.OPENING ∧
    (exec setup.1 minusTwoTicks.dropLast).currentServoPos = 1 ∧
    (exec setup.1 minusTwoTicks).currentServoPos = -2 ∧
    (∀ (s : Ctl) (inp : Nat → Tick), s.currentState = BinState.OPENING →
      0 < s.currentServoPos → s.currentServoPos % 3 = 1 →
      ∃ n : Nat, (run s inp n).currentServoPos = -2) := by
  refine ⟨?_, by decide, by decide, by decide, by decide, by decide, by decide, ?_⟩
  · intro ticks
    have h := inv_exec setup.1 ticks inv_setup
    exact ⟨h.1, h.2.1⟩
  · intro s inp hs hp hmod
    refine ⟨((s.currentServoPos + 2) / 3).toNat, ?_⟩
    rw [(opening_reaches_open s inp hs).1 _ (Nat.le_refl _)]
    simp only
    omega

/-- C19: a state reachable from the `setup()` state whose state field is
`CLOSED` has position `CLOSED_POS = 140`; with the servo detached and
`lastServoStepTime` still 0 it is the `setup()` state itself. -/
theorem closed_only_at_closed_pos (ticks : List Tick)
    (h : (exec setup.1 ticks).currentState = BinState.CLOSED) :
    (exec setup.1 ticks).currentServoPos = CLOSED_POS ∧
    (exec setup.1 ticks).currentServoPos = 140 ∧
    exec setup.1 ticks = setup.1 := by
  have hinv := inv_exec setup.1 ticks inv_setup
  have hl := exec_lastServoStepTime setup.1 ticks
  have hpos : (exec setup.1 ticks).currentServoPos = 140 := hinv.2.2.2 h
  have hatt : (exec setup.1 ticks).attached = false := by
    have := hinv.2.2.1
    rw [h] at this
    cases ha : (exec setup.1 ticks).attached
    · rfl
    · exact absurd rfl (this.1 ha)
  refine ⟨hpos, hpos, ?_⟩
  cases hE : exec setup.1 ticks with
  | mk st pos last att =>
    rw [hE] at h hl hpos hatt
    simp only at h hl hpos hatt
    rw [h, hl, hpos, hatt]
    rfl

set_option maxRecDepth 20000 in
/-- C19 on a whole cycle: after the run `fullCycleTicks` (open, dwell, close)
the state is `CLOSED` again, at position 140. -/
theorem closed_only_at_closed_pos_witness :
    (exec setup.1 fullCycleTicks).currentState = BinState.CLOSED ∧
    (exec setup.1 fullCycleTicks.dropLast).currentState = BinState.CLOSING ∧
    (exec setup.1 fullCycleTicks).currentServoPos = 140 ∧
    exec setup.1 fullCycleTicks = setup.1 :=
  have h := closed_only_at_closed_pos fullCycleTicks (by decide)
  ⟨by decide, by decide, h.2.1, h.2.2⟩

end SmartBin
